import Mathlib

/-!
Shallow embedding of the QAuth / QuantumShield core (Rust) in Lean 4,
with theorems settling the specification claims about:

* `QToken` binary format and base64url encode/decode (token.rs),
* `QTokenValidator::validate` error pipeline (token.rs),
* the policy engine's rule selection and default-deny (policy.rs),
* `ProofValidator::validate` and its nonce cache (proof.rs),
* the session `MessageChannel` replay window (protocol/message.rs),
* dual-signature verification (sign/dual.rs, crypto.rs),
* `QTokenPayload::new` time fields (token.rs),
* `RevocationBloomFilter` (revocation.rs).

Bytes are modelled as `List Nat` with values `< 256`; u64/u16 arithmetic is
done in `Nat` with explicit `% 2 ^ 64` (resp. `% 65536`) where the Rust code
wraps or casts.  External cryptographic primitives (SHA-256, SHA3-256,
Ed25519, ML-DSA, SLH-DSA, XChaCha20-Poly1305) are black boxes in the source
(consumed through their standard interfaces), and are correspondingly
abstracted as function parameters here.
-/

/-! ### Byte-level helpers -/

/-- All entries of a byte list are actual bytes. -/
def bytesWF (l : List Nat) : Prop := ∀ x ∈ l, x < 256

/-- Big-endian 2-byte encoding of a u16 value (`u16::to_be_bytes`). -/
def u16be (n : Nat) : List Nat := [n / 256 % 256, n % 256]

/-- Big-endian 8-byte encoding of a u64 value (`u64::to_be_bytes`). -/
def u64be (n : Nat) : List Nat :=
  [n / 2 ^ 56 % 256, n / 2 ^ 48 % 256, n / 2 ^ 40 % 256, n / 2 ^ 32 % 256,
   n / 2 ^ 24 % 256, n / 2 ^ 16 % 256, n / 2 ^ 8 % 256, n % 256]

/-- Little-endian 8-byte encoding of a u64 value (`u64::to_le_bytes`). -/
def u64le (n : Nat) : List Nat :=
  [n % 256, n / 2 ^ 8 % 256, n / 2 ^ 16 % 256, n / 2 ^ 24 % 256,
   n / 2 ^ 32 % 256, n / 2 ^ 40 % 256, n / 2 ^ 48 % 256, n / 2 ^ 56 % 256]

/-- Big-endian value of a byte list (`u16::from_be_bytes` / `u64::from_be_bytes`
on slices of the appropriate length). -/
def beVal (b : List Nat) : Nat := b.foldl (fun acc x => acc * 256 + x) 0

/-- UTF-8 bytes of a string (`str::as_bytes`). -/
def strBytes (s : String) : List Nat := s.toUTF8.toList.map (fun b => b.toNat)

theorem beVal_u16be (n : Nat) (h : n < 65536) : beVal (u16be n) = n := by
  simp [beVal, u16be]
  omega

theorem beVal_u64be (n : Nat) (h : n < 2 ^ 64) : beVal (u64be n) = n := by
  simp [beVal, u64be]
  omega

theorem u16be_length (n : Nat) : (u16be n).length = 2 := rfl

theorem u64be_length (n : Nat) : (u64be n).length = 8 := rfl

theorem u16be_bytesWF (n : Nat) : bytesWF (u16be n) := by
  simp [bytesWF, u16be]
  omega

theorem u64be_bytesWF (n : Nat) : bytesWF (u64be n) := by
  simp [bytesWF, u64be]
  omega

/-! ### base64url without padding

The Rust side uses `base64::engine::general_purpose::URL_SAFE_NO_PAD`.
We model strings as `List Char`.  Encoding processes input bytes three at a
time producing four alphabet characters, with 1- and 2-byte tails producing
two resp. three characters.  Decoding is the inverse; the engine rejects a
single trailing character and non-zero trailing bits (the crate's default
`decode_allow_trailing_bits = false`). -/

/-- Character of the URL-safe base64 alphabet at index `i < 64`. -/
def b64char (i : Nat) : Char :=
  if i < 26 then Char.ofNat (65 + i)
  else if i < 52 then Char.ofNat (71 + i)
  else if i < 62 then Char.ofNat (i - 4)
  else if i = 62 then '-'
  else '_'

/-- Index of a character in the URL-safe base64 alphabet. -/
def b64inv (c : Char) : Option Nat :=
  let n := c.toNat
  if 65 ≤ n ∧ n ≤ 90 then some (n - 65)
  else if 97 ≤ n ∧ n ≤ 122 then some (n - 71)
  else if 48 ≤ n ∧ n ≤ 57 then some (n + 4)
  else if n = 45 then some 62
  else if n = 95 then some 63
  else none

theorem b64inv_b64char : ∀ i, i < 64 → b64inv (b64char i) = some i := by decide

/-- URL-safe no-padding base64 encoding of a byte list. -/
def base64urlEncode : List Nat → List Char
  | [] => []
  | [a] => [b64char (a / 4), b64char (a % 4 * 16)]
  | [a, b] => [b64char (a / 4), b64char (a % 4 * 16 + b / 16), b64char (b % 16 * 4)]
  | a :: b :: c :: rest =>
      b64char (a / 4) :: b64char (a % 4 * 16 + b / 16) ::
      b64char (b % 16 * 4 + c / 64) :: b64char (c % 64) :: base64urlEncode rest

/-- URL-safe no-padding base64 decoding of a character list. -/
def base64urlDecode : List Char → Option (List Nat)
  | [] => some []
  | [_] => none
  | [c1, c2] =>
      match b64inv c1, b64inv c2 with
      | some s1, some s2 =>
          if s2 % 16 = 0 then some [s1 * 4 + s2 / 16] else none
      | _, _ => none
  | [c1, c2, c3] =>
      match b64inv c1, b64inv c2, b64inv c3 with
      | some s1, some s2, some s3 =>
          if s3 % 4 = 0 then some [s1 * 4 + s2 / 16, s2 % 16 * 16 + s3 / 4] else none
      | _, _, _ => none
  | c1 :: c2 :: c3 :: c4 :: rest =>
      match b64inv c1, b64inv c2, b64inv c3, b64inv c4, base64urlDecode rest with
      | some s1, some s2, some s3, some s4, some tail =>
          some ((s1 * 4 + s2 / 16) :: (s2 % 16 * 16 + s3 / 4) :: (s3 % 4 * 64 + s4) :: tail)
      | _, _, _, _, _ => none

theorem mulAddDivCancel (x y k : Nat) (hk : 0 < k) (hy : y < k) : (x * k + y) / k = x := by
  rw [Nat.mul_comm x k, Nat.mul_add_div hk, Nat.div_eq_of_lt hy, Nat.add_zero]

theorem mulAddModCancel (x y k : Nat) (hy : y < k) : (x * k + y) % k = y := by
  rw [Nat.mul_comm x k, Nat.mul_add_mod]
  exact Nat.mod_eq_of_lt hy

theorem mulDivSelf (x k : Nat) (hk : 0 < k) : x * k / k = x := by
  have h := mulAddDivCancel x 0 k hk hk
  simpa using h

theorem base64url_roundtrip :
    ∀ (bs : List Nat), bytesWF bs → base64urlDecode (base64urlEncode bs) = some bs
  | [], _ => by simp [base64urlEncode, base64urlDecode]
  | [a], h => by
      have ha : a < 256 := h a (by simp)
      have h1 : a % 4 * 16 % 16 = 0 := by
        have := mulAddModCancel (a % 4) 0 16 (by omega)
        simp at this; omega
      have h2 : a % 4 * 16 / 16 = a % 4 := mulDivSelf (a % 4) 16 (by omega)
      simp only [base64urlEncode, base64urlDecode,
        b64inv_b64char _ (by omega : a / 4 < 64),
        b64inv_b64char _ (by omega : a % 4 * 16 < 64), h1, h2]
      simp
      omega
  | [a, b], h => by
      have ha : a < 256 := h a (by simp)
      have hb : b < 256 := h b (by simp)
      have h1 : b % 16 * 4 % 4 = 0 := by
        have := mulAddModCancel (b % 16) 0 4 (by omega)
        simp at this; omega
      have h2 : (a % 4 * 16 + b / 16) / 16 = a % 4 :=
        mulAddDivCancel (a % 4) (b / 16) 16 (by omega) (by omega)
      have h3 : (a % 4 * 16 + b / 16) % 16 = b / 16 :=
        mulAddModCancel (a % 4) (b / 16) 16 (by omega)
      have h4 : b % 16 * 4 / 4 = b % 16 := mulDivSelf (b % 16) 4 (by omega)
      simp only [base64urlEncode, base64urlDecode,
        b64inv_b64char _ (by omega : a / 4 < 64),
        b64inv_b64char _ (by omega : a % 4 * 16 + b / 16 < 64),
        b64inv_b64char _ (by omega : b % 16 * 4 < 64), h1, h2, h3, h4]
      simp
      constructor
      · omega
      · omega
  | a :: b :: c :: rest, h => by
      have ha : a < 256 := h a (by simp)
      have hb : b < 256 := h b (by simp)
      have hc : c < 256 := h c (by simp)
      have ih := base64url_roundtrip rest (fun x hx => h x (by simp [hx]))
      have h2 : (a % 4 * 16 + b / 16) / 16 = a % 4 :=
        mulAddDivCancel (a % 4) (b / 16) 16 (by omega) (by omega)
      have h3 : (a % 4 * 16 + b / 16) % 16 = b / 16 :=
        mulAddModCancel (a % 4) (b / 16) 16 (by omega)
      have h4 : (b % 16 * 4 + c / 64) / 4 = b % 16 :=
        mulAddDivCancel (b % 16) (c / 64) 4 (by omega) (by omega)
      have h5 : (b % 16 * 4 + c / 64) % 4 = c / 64 :=
        mulAddModCancel (b % 16) (c / 64) 4 (by omega)
      simp only [base64urlEncode, base64urlDecode,
        b64inv_b64char _ (by omega : a / 4 < 64),
        b64inv_b64char _ (by omega : a % 4 * 16 + b / 16 < 64),
        b64inv_b64char _ (by omega : b % 16 * 4 + c / 64 < 64),
        b64inv_b64char _ (by omega : c % 64 < 64), ih, h2, h3, h4, h5]
      simp only [Option.some.injEq, List.cons.injEq]
      refine ⟨by omega, by omega, by omega, trivial⟩

/-! ### QToken binary format (qauth/rust/src/token.rs, crypto.rs)

Sizes from crypto.rs: `ED25519_SIGNATURE_SIZE = 64`, `MLDSA_SIGNATURE_SIZE =
3309`, `DUAL_SIGNATURE_SIZE = 3373`, `XCHACHA20_NONCE_SIZE = 24`,
`KEY_ID_SIZE = 32`; from token.rs: `HEADER_SIZE = 42`,
`PROOF_BINDING_SIZE = 96`. -/

/-- QToken header (`QTokenHeader`, 42 bytes fixed). -/
structure QTokenHeader where
  version : Nat
  tokenType : Nat
  keyId : List Nat
  timestamp : Nat

/-- Serialization of the header (`QTokenHeader::to_bytes`). -/
def QTokenHeader.toBytes (h : QTokenHeader) : List Nat :=
  h.version :: h.tokenType :: (h.keyId ++ u64be h.timestamp)

/-- Valid token-type bytes (`TokenType::from_byte`). -/
def TokenType.fromByte (b : Nat) : Option Nat :=
  if b = 1 ∨ b = 2 ∨ b = 3 ∨ b = 4 then some b else none

/-- Parsing of the header (`QTokenHeader::from_bytes`). -/
def QTokenHeader.fromBytes (bytes : List Nat) : Option QTokenHeader :=
  if bytes.length < 42 then none
  else if bytes.getD 0 0 ≠ 1 then none
  else
    (TokenType.fromByte (bytes.getD 1 0)).bind fun tt =>
      some ⟨bytes.getD 0 0, tt, (bytes.drop 2).take 32, beVal ((bytes.drop 34).take 8)⟩

/-- Encrypted payload with nonce (`EncryptedData`). -/
structure EncryptedData where
  nonce : List Nat
  ciphertext : List Nat

/-- Serialization `nonce || ciphertext` (`EncryptedData::to_bytes`). -/
def EncryptedData.toBytes (e : EncryptedData) : List Nat := e.nonce ++ e.ciphertext

/-- Parsing (`EncryptedData::from_bytes`): 24-byte nonce then the rest. -/
def EncryptedData.fromBytes (b : List Nat) : Option EncryptedData :=
  if b.length < 24 then none else some ⟨b.take 24, b.drop 24⟩

/-- Dual signature bytes (`DualSignature`, Ed25519 64 bytes plus ML-DSA-65
(Dilithium3) 3309 bytes). -/
structure DualSignature where
  ed25519 : List Nat
  mldsa : List Nat

/-- Serialization (`DualSignature::to_bytes`). -/
def DualSignature.toBytes (s : DualSignature) : List Nat := s.ed25519 ++ s.mldsa

/-- Parsing (`DualSignature::from_bytes`): takes exactly 64 + 3309 bytes. -/
def DualSignature.fromBytes (b : List Nat) : Option DualSignature :=
  if b.length < 3373 then none else some ⟨b.take 64, (b.drop 64).take 3309⟩

/-- Proof binding (`ProofBinding`, 96 bytes fixed). -/
structure ProofBinding where
  deviceKey : List Nat
  clientKey : List Nat
  ipHash : List Nat

/-- Serialization (`ProofBinding::to_bytes`). -/
def ProofBinding.toBytes (p : ProofBinding) : List Nat :=
  p.deviceKey ++ p.clientKey ++ p.ipHash

/-- Parsing (`ProofBinding::from_bytes`): takes the first 96 bytes. -/
def ProofBinding.fromBytes (b : List Nat) : Option ProofBinding :=
  if b.length < 96 then none else some ⟨b.take 32, (b.drop 32).take 32, (b.drop 64).take 32⟩

/-- Complete token (`QToken`). -/
structure QToken where
  header : QTokenHeader
  encryptedPayload : EncryptedData
  signature : DualSignature
  binding : ProofBinding

/-- Serialization (`QToken::to_bytes`).  The encrypted-payload length is
written as `len as u16` big-endian, i.e. reduced `% 65536`. -/
def QToken.toBytes (t : QToken) : List Nat :=
  t.header.toBytes ++ u16be (t.encryptedPayload.toBytes.length % 65536) ++
    t.encryptedPayload.toBytes ++ t.signature.toBytes ++ t.binding.toBytes

/-- Parsing (`QToken::from_bytes`). -/
def QToken.fromBytes (bytes : List Nat) : Option QToken :=
  if bytes.length < 44 then none
  else
    (QTokenHeader.fromBytes (bytes.take 42)).bind fun header =>
      if bytes.length < 44 + beVal ((bytes.drop 42).take 2) + 3373 + 96 then none
      else
        (EncryptedData.fromBytes ((bytes.drop 44).take (beVal ((bytes.drop 42).take 2)))).bind
          fun enc =>
            (DualSignature.fromBytes
                ((bytes.drop (44 + beVal ((bytes.drop 42).take 2))).take 3373)).bind fun sig =>
              (ProofBinding.fromBytes
                  (bytes.drop (44 + beVal ((bytes.drop 42).take 2) + 3373))).bind fun binding =>
                some ⟨header, enc, sig, binding⟩

/-- Base64url encoding of a token (`QToken::encode`); strings are `List Char`. -/
def QToken.encode (t : QToken) : List Char := base64urlEncode t.toBytes

/-- Base64url decoding of a token (`QToken::decode`); errors collapse to `none`. -/
def QToken.decode (s : List Char) : Option QToken :=
  (base64urlDecode s).bind QToken.fromBytes

/-- Token creation (`QToken::create`).  The payload-encryption primitive
(XChaCha20-Poly1305 with a random nonce) and the dual-signing primitive are
black boxes in the source; they enter here as the function parameters
`encrypt` (plaintext and AAD to encrypted data) and `sign` (message to dual
signature).  `nowMs` stands for `Utc::now().timestamp_millis()`. -/
def QToken.create (tokenType : Nat) (keyId : List Nat) (nowMs : Nat)
    (payloadCbor : List Nat)
    (encrypt : List Nat → List Nat → EncryptedData)
    (sign : List Nat → DualSignature)
    (binding : ProofBinding) : QToken :=
  let header : QTokenHeader := ⟨1, tokenType, keyId, nowMs⟩
  let headerBytes := header.toBytes
  let encryptedPayload := encrypt payloadCbor headerBytes
  ⟨header, encryptedPayload, sign (headerBytes ++ encryptedPayload.toBytes), binding⟩

/-- Structural well-formedness of a token: the fixed-size fields have their
declared sizes and every entry is a byte.  Every token built by
`QToken::create` from the Rust types satisfies this by construction. -/
def QToken.WF (t : QToken) : Prop :=
  t.header.version = 1 ∧
  (t.header.tokenType = 1 ∨ t.header.tokenType = 2 ∨
    t.header.tokenType = 3 ∨ t.header.tokenType = 4) ∧
  t.header.keyId.length = 32 ∧ bytesWF t.header.keyId ∧
  t.header.timestamp < 2 ^ 64 ∧
  t.encryptedPayload.nonce.length = 24 ∧ bytesWF t.encryptedPayload.nonce ∧
  bytesWF t.encryptedPayload.ciphertext ∧
  t.signature.ed25519.length = 64 ∧ bytesWF t.signature.ed25519 ∧
  t.signature.mldsa.length = 3309 ∧ bytesWF t.signature.mldsa ∧
  t.binding.deviceKey.length = 32 ∧ bytesWF t.binding.deviceKey ∧
  t.binding.clientKey.length = 32 ∧ bytesWF t.binding.clientKey ∧
  t.binding.ipHash.length = 32 ∧ bytesWF t.binding.ipHash

theorem headerToBytes_length (h : QTokenHeader) (hk : h.keyId.length = 32) :
    h.toBytes.length = 42 := by
  simp [QTokenHeader.toBytes, hk, u64be_length]

theorem headerParse_toBytes (h : QTokenHeader)
    (hv : h.version = 1)
    (htt : h.tokenType = 1 ∨ h.tokenType = 2 ∨ h.tokenType = 3 ∨ h.tokenType = 4)
    (hk : h.keyId.length = 32) (hts : h.timestamp < 2 ^ 64) :
    QTokenHeader.fromBytes h.toBytes = some h := by
  obtain ⟨ver, tt, keyId, ts⟩ := h
  simp only at hv htt hk hts
  subst hv
  have hlen : (QTokenHeader.toBytes ⟨1, tt, keyId, ts⟩).length = 42 :=
    headerToBytes_length _ hk
  have hget0 : (QTokenHeader.toBytes ⟨1, tt, keyId, ts⟩).getD 0 0 = 1 := rfl
  have hget1 : (QTokenHeader.toBytes ⟨1, tt, keyId, ts⟩).getD 1 0 = tt := rfl
  have hdrop2 : (QTokenHeader.toBytes ⟨1, tt, keyId, ts⟩).drop 2 = keyId ++ u64be ts := rfl
  have hdrop34 : (QTokenHeader.toBytes ⟨1, tt, keyId, ts⟩).drop 34 =
      (keyId ++ u64be ts).drop 32 := rfl
  rw [QTokenHeader.fromBytes, if_neg (by omega), hget0, hget1, hdrop2, hdrop34,
    if_neg (by simp), TokenType.fromByte, if_pos htt, List.take_left' hk,
    List.drop_left' hk, List.take_of_length_le (le_of_eq (u64be_length ts)),
    beVal_u64be ts hts]
  rfl

theorem encToBytes_length (e : EncryptedData) (hn : e.nonce.length = 24) :
    e.toBytes.length = 24 + e.ciphertext.length := by
  simp [EncryptedData.toBytes, hn]

theorem encParse_toBytes (e : EncryptedData) (hn : e.nonce.length = 24) :
    EncryptedData.fromBytes e.toBytes = some e := by
  obtain ⟨nonce, ct⟩ := e
  simp only at hn
  rw [EncryptedData.fromBytes, EncryptedData.toBytes]
  rw [if_neg (by simp [hn]), List.take_left' hn, List.drop_left' hn]

theorem sigToBytes_length (s : DualSignature)
    (he : s.ed25519.length = 64) (hm : s.mldsa.length = 3309) :
    s.toBytes.length = 3373 := by
  simp [DualSignature.toBytes, he, hm]

theorem sigParse_toBytes (s : DualSignature)
    (he : s.ed25519.length = 64) (hm : s.mldsa.length = 3309) :
    DualSignature.fromBytes s.toBytes = some s := by
  obtain ⟨ed, ml⟩ := s
  simp only at he hm
  rw [DualSignature.fromBytes, DualSignature.toBytes]
  rw [if_neg (by simp [he, hm]), List.take_left' he, List.drop_left' he,
    List.take_of_length_le (le_of_eq hm)]

theorem bindingToBytes_length (p : ProofBinding)
    (hd : p.deviceKey.length = 32) (hc : p.clientKey.length = 32)
    (hi : p.ipHash.length = 32) : p.toBytes.length = 96 := by
  simp [ProofBinding.toBytes, hd, hc, hi]

theorem bindingParse_toBytes (p : ProofBinding)
    (hd : p.deviceKey.length = 32) (hc : p.clientKey.length = 32)
    (hi : p.ipHash.length = 32) :
    ProofBinding.fromBytes p.toBytes = some p := by
  obtain ⟨dk, ck, iph⟩ := p
  simp only at hd hc hi
  have h64 : (dk ++ ck).length = 64 := by simp [hd, hc]
  have hassoc : ProofBinding.toBytes ⟨dk, ck, iph⟩ = (dk ++ ck) ++ iph := by
    simp [ProofBinding.toBytes]
  rw [ProofBinding.fromBytes, hassoc]
  rw [if_neg (by simp [hd, hc, hi]), List.drop_left' h64,
    List.take_of_length_le (le_of_eq hi), List.append_assoc,
    List.take_left' hd, List.drop_left' hd, List.take_left' hc]

theorem QToken.toBytes_assoc (t : QToken) :
    t.toBytes = t.header.toBytes ++
      (u16be (t.encryptedPayload.toBytes.length % 65536) ++
        (t.encryptedPayload.toBytes ++ (t.signature.toBytes ++ t.binding.toBytes))) := by
  simp [QToken.toBytes, List.append_assoc]

theorem QToken.fromBytes_toBytes (t : QToken) (hwf : t.WF)
    (hlen : t.encryptedPayload.toBytes.length < 65536) :
    QToken.fromBytes t.toBytes = some t := by
  obtain ⟨hv, htt, hk, -, hts, hn, -, -, he, -, hm, -, hd, -, hc, -, hi, -⟩ := hwf
  have hdrLen : t.header.toBytes.length = 42 := headerToBytes_length _ hk
  have sigLen : t.signature.toBytes.length = 3373 := sigToBytes_length _ he hm
  have bindLen : t.binding.toBytes.length = 96 := bindingToBytes_length _ hd hc hi
  have hmod : t.encryptedPayload.toBytes.length % 65536 = t.encryptedPayload.toBytes.length :=
    Nat.mod_eq_of_lt hlen
  have totLen : t.toBytes.length = 3513 + t.encryptedPayload.toBytes.length := by
    rw [QToken.toBytes_assoc]
    simp [List.length_append, hdrLen, sigLen, bindLen, u16be_length]
    omega
  have t42 : t.toBytes.take 42 = t.header.toBytes := by
    rw [QToken.toBytes_assoc]
    exact List.take_left' hdrLen
  have d42 : t.toBytes.drop 42 =
      u16be (t.encryptedPayload.toBytes.length % 65536) ++
        (t.encryptedPayload.toBytes ++ (t.signature.toBytes ++ t.binding.toBytes)) := by
    rw [QToken.toBytes_assoc]
    exact List.drop_left' hdrLen
  have tLen : beVal ((t.toBytes.drop 42).take 2) = t.encryptedPayload.toBytes.length := by
    rw [d42, List.take_left' (u16be_length _),
      beVal_u16be _ (Nat.mod_lt _ (by norm_num)), hmod]
  have d44 : t.toBytes.drop 44 =
      t.encryptedPayload.toBytes ++ (t.signature.toBytes ++ t.binding.toBytes) := by
    have h44 : (44 : Nat) = 42 + 2 := rfl
    rw [h44, ← List.drop_drop, d42, List.drop_left' (u16be_length _)]
  have encTake : (t.toBytes.drop 44).take t.encryptedPayload.toBytes.length =
      t.encryptedPayload.toBytes := by
    rw [d44]
    exact List.take_left' rfl
  have dSig : t.toBytes.drop (44 + t.encryptedPayload.toBytes.length) =
      t.signature.toBytes ++ t.binding.toBytes := by
    rw [← List.drop_drop, d44]
    exact List.drop_left' rfl
  have sigTake : (t.toBytes.drop (44 + t.encryptedPayload.toBytes.length)).take 3373 =
      t.signature.toBytes := by
    rw [dSig]
    exact List.take_left' sigLen
  have dBind : t.toBytes.drop (44 + t.encryptedPayload.toBytes.length + 3373) =
      t.binding.toBytes := by
    rw [← List.drop_drop, dSig]
    exact List.drop_left' sigLen
  rw [QToken.fromBytes, if_neg (by omega), t42,
    headerParse_toBytes _ hv htt hk hts, tLen, Option.some_bind,
    if_neg (by omega), encTake, encParse_toBytes _ hn,
    Option.some_bind, sigTake, sigParse_toBytes _ he hm,
    Option.some_bind, dBind, bindingParse_toBytes _ hd hc hi,
    Option.some_bind]

theorem QToken.toBytes_bytesWF (t : QToken) (hwf : t.WF) : bytesWF t.toBytes := by
  obtain ⟨hv, htt, -, hkb, -, -, hnb, hcb, -, heb, -, hmb, -, hdb, -, hckb, -, hib⟩ := hwf
  intro x hx
  simp only [QToken.toBytes, QTokenHeader.toBytes, EncryptedData.toBytes,
    DualSignature.toBytes, ProofBinding.toBytes, List.mem_append, List.mem_cons] at hx
  rcases hx with ((((hx | hx | hx | hx) | hx) | hx | hx) | hx | hx) | (hx | hx) | hx <;>
    first
      | omega
      | exact hkb x hx
      | exact u64be_bytesWF _ x hx
      | exact u16be_bytesWF _ x hx
      | exact hnb x hx
      | exact hcb x hx
      | exact heb x hx
      | exact hmb x hx
      | exact hdb x hx
      | exact hckb x hx
      | exact hib x hx

theorem replicate_bytesWF (n a : Nat) (ha : a < 256) : bytesWF (List.replicate n a) := by
  intro x hx
  rw [List.mem_replicate] at hx
  omega

theorem QToken.decode_encode (t : QToken) (hwf : t.WF)
    (hlen : t.encryptedPayload.toBytes.length < 65536) :
    QToken.decode (QToken.encode t) = some t := by
  rw [QToken.decode, QToken.encode,
    base64url_roundtrip _ (QToken.toBytes_bytesWF t hwf), Option.some_bind,
    QToken.fromBytes_toBytes t hwf hlen]

/-- C1 (amended).  For every token produced by `QToken::create` whose
encrypted payload serializes to fewer than 65536 bytes, base64url decoding
of the encoding succeeds and returns a token whose byte serialization equals
`t.to_bytes()` byte-for-byte (indeed the identical token).  The bound is
forced by the wire format's 2-byte length field: `QToken::to_bytes` writes
the encrypted-payload length as `len as u16`, silently truncating larger
lengths (see the counterexample). -/
theorem C1_token_roundtrip_bounded
    (tokenType : Nat) (keyId : List Nat) (nowMs : Nat) (payloadCbor : List Nat)
    (encrypt : List Nat → List Nat → EncryptedData) (sign : List Nat → DualSignature)
    (binding : ProofBinding)
    (hwf : (QToken.create tokenType keyId nowMs payloadCbor encrypt sign binding).WF)
    (hsize : (QToken.create tokenType keyId nowMs payloadCbor encrypt
        sign binding).encryptedPayload.toBytes.length < 65536) :
    QToken.decode (QToken.encode
        (QToken.create tokenType keyId nowMs payloadCbor encrypt sign binding)) =
      some (QToken.create tokenType keyId nowMs payloadCbor encrypt sign binding) ∧
    (QToken.decode (QToken.encode
        (QToken.create tokenType keyId nowMs payloadCbor encrypt sign binding))).map
        QToken.toBytes =
      some (QToken.create tokenType keyId nowMs payloadCbor encrypt sign binding).toBytes := by
  have h := QToken.decode_encode _ hwf hsize
  exact ⟨h, by rw [h]; rfl⟩

theorem C1_token_roundtrip_bounded_witness :
    QToken.decode (QToken.encode (QToken.create 1 (List.replicate 32 9) 1700000000000
        [161, 99, 115, 117, 98, 67, 1, 2, 3]
        (fun pt _ => ⟨List.replicate 24 5, pt ++ List.replicate 16 6⟩)
        (fun _ => ⟨List.replicate 64 7, List.replicate 3309 8⟩)
        ⟨List.replicate 32 1, List.replicate 32 2, List.replicate 32 3⟩)) =
      some (QToken.create 1 (List.replicate 32 9) 1700000000000
        [161, 99, 115, 117, 98, 67, 1, 2, 3]
        (fun pt _ => ⟨List.replicate 24 5, pt ++ List.replicate 16 6⟩)
        (fun _ => ⟨List.replicate 64 7, List.replicate 3309 8⟩)
        ⟨List.replicate 32 1, List.replicate 32 2, List.replicate 32 3⟩) := by
  have hcreate : QToken.create 1 (List.replicate 32 9) 1700000000000
      [161, 99, 115, 117, 98, 67, 1, 2, 3]
      (fun pt _ => ⟨List.replicate 24 5, pt ++ List.replicate 16 6⟩)
      (fun _ => ⟨List.replicate 64 7, List.replicate 3309 8⟩)
      ⟨List.replicate 32 1, List.replicate 32 2, List.replicate 32 3⟩ =
      ⟨⟨1, 1, List.replicate 32 9, 1700000000000⟩,
        ⟨List.replicate 24 5,
          [161, 99, 115, 117, 98, 67, 1, 2, 3] ++ List.replicate 16 6⟩,
        ⟨List.replicate 64 7, List.replicate 3309 8⟩,
        ⟨List.replicate 32 1, List.replicate 32 2, List.replicate 32 3⟩⟩ := rfl
  have hwf2 : (⟨⟨1, 1, List.replicate 32 9, 1700000000000⟩,
      ⟨List.replicate 24 5,
        [161, 99, 115, 117, 98, 67, 1, 2, 3] ++ List.replicate 16 6⟩,
      ⟨List.replicate 64 7, List.replicate 3309 8⟩,
      ⟨List.replicate 32 1, List.replicate 32 2, List.replicate 32 3⟩⟩ : QToken).WF := by
    refine ⟨rfl, Or.inl rfl, by simp only [List.length_replicate],
      replicate_bytesWF 32 9 (by omega), by norm_num,
      by simp only [List.length_replicate], replicate_bytesWF 24 5 (by omega), ?_,
      by simp only [List.length_replicate], replicate_bytesWF 64 7 (by omega),
      by simp only [List.length_replicate], replicate_bytesWF 3309 8 (by omega),
      by simp only [List.length_replicate], replicate_bytesWF 32 1 (by omega),
      by simp only [List.length_replicate], replicate_bytesWF 32 2 (by omega),
      by simp only [List.length_replicate], replicate_bytesWF 32 3 (by omega)⟩
    intro x hx
    rcases List.mem_append.mp hx with hx | hx
    · exact (by decide : ∀ y ∈ [161, 99, 115, 117, 98, 67, 1, 2, 3], y < 256) x hx
    · exact replicate_bytesWF 16 6 (by omega) x hx
  have h := C1_token_roundtrip_bounded 1 (List.replicate 32 9) 1700000000000
    [161, 99, 115, 117, 98, 67, 1, 2, 3]
    (fun pt _ => ⟨List.replicate 24 5, pt ++ List.replicate 16 6⟩)
    (fun _ => ⟨List.replicate 64 7, List.replicate 3309 8⟩)
    ⟨List.replicate 32 1, List.replicate 32 2, List.replicate 32 3⟩
    (by rw [hcreate]; exact hwf2)
    (by
      rw [hcreate]
      simp only [EncryptedData.toBytes, List.length_append, List.length_replicate]
      norm_num)
  exact h.1

theorem QToken.fromBytes_toBytes_overflow (t : QToken) (hwf : t.WF)
    (hlen : t.encryptedPayload.toBytes.length % 65536 = 0) :
    QToken.fromBytes t.toBytes = none := by
  obtain ⟨hv, htt, hk, -, hts, hn, -, -, he, -, hm, -, hd, -, hc, -, hi, -⟩ := hwf
  have hdrLen : t.header.toBytes.length = 42 := headerToBytes_length _ hk
  have sigLen : t.signature.toBytes.length = 3373 := sigToBytes_length _ he hm
  have bindLen : t.binding.toBytes.length = 96 := bindingToBytes_length _ hd hc hi
  have totLen : t.toBytes.length = 3513 + t.encryptedPayload.toBytes.length := by
    rw [QToken.toBytes_assoc]
    simp [List.length_append, hdrLen, sigLen, bindLen, u16be_length]
    omega
  have t42 : t.toBytes.take 42 = t.header.toBytes := by
    rw [QToken.toBytes_assoc]
    exact List.take_left' hdrLen
  have d42 : t.toBytes.drop 42 =
      u16be (t.encryptedPayload.toBytes.length % 65536) ++
        (t.encryptedPayload.toBytes ++ (t.signature.toBytes ++ t.binding.toBytes)) := by
    rw [QToken.toBytes_assoc]
    exact List.drop_left' hdrLen
  have tLen : beVal ((t.toBytes.drop 42).take 2) = 0 := by
    rw [d42, List.take_left' (u16be_length _), hlen]
    rfl
  rw [QToken.fromBytes, if_neg (by omega), t42,
    headerParse_toBytes _ hv htt hk hts, tLen, Option.some_bind,
    if_neg (by omega), List.take_zero]
  rfl

/-- C1 counterexample.  The claim as stated fails: `QToken::to_bytes` writes
the encrypted-payload length as `len as u16`.  For this concrete token
produced by `QToken::create` (payload CBOR of 65496 bytes, so the encrypted
payload is 24 + 65496 + 16 = 65536 bytes), the length field wraps to 0 and
`QToken::decode (QToken::encode t)` fails instead of round-tripping. -/
theorem C1_token_roundtrip_counterexample :
    QToken.decode (QToken.encode (QToken.create 1 (List.replicate 32 0) 0
        (List.replicate 65496 7)
        (fun pt _ => ⟨List.replicate 24 0, pt ++ List.replicate 16 0⟩)
        (fun _ => ⟨List.replicate 64 0, List.replicate 3309 0⟩)
        ⟨List.replicate 32 0, List.replicate 32 0, List.replicate 32 0⟩)) = none := by
  have hcreate : QToken.create 1 (List.replicate 32 0) 0
      (List.replicate 65496 7)
      (fun pt _ => ⟨List.replicate 24 0, pt ++ List.replicate 16 0⟩)
      (fun _ => ⟨List.replicate 64 0, List.replicate 3309 0⟩)
      ⟨List.replicate 32 0, List.replicate 32 0, List.replicate 32 0⟩ =
      ⟨⟨1, 1, List.replicate 32 0, 0⟩,
        ⟨List.replicate 24 0, List.replicate 65496 7 ++ List.replicate 16 0⟩,
        ⟨List.replicate 64 0, List.replicate 3309 0⟩,
        ⟨List.replicate 32 0, List.replicate 32 0, List.replicate 32 0⟩⟩ := rfl
  have hwf : (⟨⟨1, 1, List.replicate 32 0, 0⟩,
      ⟨List.replicate 24 0, List.replicate 65496 7 ++ List.replicate 16 0⟩,
      ⟨List.replicate 64 0, List.replicate 3309 0⟩,
      ⟨List.replicate 32 0, List.replicate 32 0, List.replicate 32 0⟩⟩ : QToken).WF := by
    refine ⟨rfl, Or.inl rfl, by simp only [List.length_replicate],
      replicate_bytesWF 32 0 (by omega), by norm_num,
      by simp only [List.length_replicate], replicate_bytesWF 24 0 (by omega), ?_,
      by simp only [List.length_replicate], replicate_bytesWF 64 0 (by omega),
      by simp only [List.length_replicate], replicate_bytesWF 3309 0 (by omega),
      by simp only [List.length_replicate], replicate_bytesWF 32 0 (by omega),
      by simp only [List.length_replicate], replicate_bytesWF 32 0 (by omega),
      by simp only [List.length_replicate], replicate_bytesWF 32 0 (by omega)⟩
    intro x hx
    rcases List.mem_append.mp hx with hx | hx
    · exact replicate_bytesWF 65496 7 (by omega) x hx
    · exact replicate_bytesWF 16 0 (by omega) x hx
  rw [hcreate, QToken.decode, QToken.encode,
    base64url_roundtrip _ (QToken.toBytes_bytesWF _ hwf), Option.some_bind,
    QToken.fromBytes_toBytes_overflow _ hwf (by
      rw [show (⟨⟨1, 1, List.replicate 32 0, 0⟩,
          ⟨List.replicate 24 0, List.replicate 65496 7 ++ List.replicate 16 0⟩,
          ⟨List.replicate 64 0, List.replicate 3309 0⟩,
          ⟨List.replicate 32 0, List.replicate 32 0, List.replicate 32 0⟩⟩ :
            QToken).encryptedPayload.toBytes =
          List.replicate 24 0 ++ (List.replicate 65496 7 ++ List.replicate 16 0) from rfl]
      simp only [List.length_append, List.length_replicate])]

/-! ### Error taxonomy (qauth/rust/src/error.rs) -/

/-- Token-validation error codes (`ErrorCode`); `code` below gives the wire
strings E001 through E010. -/
inductive ErrorCode where
  | invalidVersion
  | invalidType
  | signatureFailed
  | decryptionFailed
  | tokenExpired
  | tokenNotYetValid
  | invalidAudience
  | invalidIssuer
  | bindingMismatch
  | tokenRevoked
deriving DecidableEq, Repr

/-- Wire string of an error code (`ErrorCode::code`). -/
def ErrorCode.code : ErrorCode → String
  | .invalidVersion => "E001"
  | .invalidType => "E002"
  | .signatureFailed => "E003"
  | .decryptionFailed => "E004"
  | .tokenExpired => "E005"
  | .tokenNotYetValid => "E006"
  | .invalidAudience => "E007"
  | .invalidIssuer => "E008"
  | .bindingMismatch => "E009"
  | .tokenRevoked => "E010"

/-- Main error type (`QAuthError`). -/
inductive QAuthError where
  | tokenValidation (code : ErrorCode)
  | cryptoError
  | serializationError (msg : String)
  | invalidInput (msg : String)
  | policyError (msg : String)
  | revocationError (msg : String)
  | invalidProof
  | keyNotFound (id : String)
  | internalError
deriving DecidableEq, Repr

/-! ### Token payload and validator (qauth/rust/src/token.rs) -/

/-- Decrypted token payload (`QTokenPayload`).  Timestamps are i64 Unix
seconds.  Custom-claim JSON values (`cst`) do not affect any claim; they are
abstracted to their serialized text. -/
structure QTokenPayload where
  sub : List Nat
  iss : String
  aud : List String
  exp : Int
  iat : Int
  nbf : Int
  jti : List Nat
  rid : List Nat
  pol : String
  ctx : List Nat
  cst : List (String × String)

/-- Payload construction (`QTokenPayload::new`).  `now` stands for
`Utc::now().timestamp()`; `jti`/`rid` are drawn from the system RNG in the
source and enter as parameters here. -/
def QTokenPayload.new (now : Int) (subject : List Nat) (issuer : String)
    (audience : List String) (policyRef : String) (validitySeconds : Int)
    (jti rid : List Nat) : QTokenPayload :=
  { sub := subject
    iss := issuer
    aud := audience
    exp := now + validitySeconds
    iat := now
    nbf := now
    jti := jti
    rid := rid
    pol := policyRef
    ctx := List.replicate 32 0
    cst := [] }

/-- Signature verification step (`QToken::verify_signatures`): the key-id
comparison and the dual-signature check are cryptographic black boxes whose
outcomes enter as the booleans `keyIdOk` (header key id equals the
verifying keys' key id) and `dualSigOk` (both Ed25519 and ML-DSA verify). -/
def QToken.verifySignatures (keyIdOk dualSigOk : Bool) : Except QAuthError Unit :=
  if !keyIdOk then .error (.tokenValidation .invalidIssuer)
  else if !dualSigOk then .error (.tokenValidation .signatureFailed)
  else .ok ()

/-- Payload decryption step (`QToken::decrypt_payload`): the XChaCha20
decryption result (`none` on AEAD failure) and the CBOR parse result enter
as parameters. -/
def QToken.decryptPayload (decryptResult : Option (List Nat))
    (parseCbor : List Nat → Option QTokenPayload) : Except QAuthError QTokenPayload :=
  match decryptResult with
  | none => .error (.tokenValidation .decryptionFailed)
  | some bs =>
    match parseCbor bs with
    | none => .error (.serializationError "invalid CBOR")
    | some p => .ok p

/-- Validated-token result (`ValidatedToken`). -/
structure ValidatedToken where
  header : QTokenHeader
  payload : QTokenPayload
  binding : ProofBinding

/-- Validator configuration (`QTokenValidator`); the verifying keys and
decryption key act only through the black-box outcomes passed to
`validate`. -/
structure QTokenValidator where
  expectedIssuer : String
  expectedAudience : String
  clockSkewSeconds : Int

/-- Token validation pipeline (`QTokenValidator::validate`): signatures,
decryption, expiry, not-before, issuer, audience, in that order. -/
def QTokenValidator.validate (v : QTokenValidator) (t : QToken)
    (keyIdOk dualSigOk : Bool) (decryptResult : Option (List Nat))
    (parseCbor : List Nat → Option QTokenPayload) (now : Int) :
    Except QAuthError ValidatedToken :=
  match QToken.verifySignatures keyIdOk dualSigOk with
  | .error e => .error e
  | .ok _ =>
    match QToken.decryptPayload decryptResult parseCbor with
    | .error e => .error e
    | .ok payload =>
      if now > payload.exp + v.clockSkewSeconds then
        .error (.tokenValidation .tokenExpired)
      else if now < payload.nbf - v.clockSkewSeconds then
        .error (.tokenValidation .tokenNotYetValid)
      else if payload.iss ≠ v.expectedIssuer then
        .error (.tokenValidation .invalidIssuer)
      else if ¬ v.expectedAudience ∈ payload.aud then
        .error (.tokenValidation .invalidAudience)
      else .ok ⟨t.header, payload, t.binding⟩

/-- C2 (amended).  For every token that passes the signature, decryption,
time, and issuer checks but whose decrypted payload's `aud` list does not
contain the validator's expected audience, `QTokenValidator::validate`
returns the audience-mismatch error E007 (`InvalidAudience`).  The
issuer-check condition is forced: the issuer comparison runs before the
audience comparison, so a token failing both yields E008 (see the
counterexample). -/
theorem C2_audience_mismatch (v : QTokenValidator) (t : QToken)
    (keyIdOk dualSigOk : Bool) (decryptResult : Option (List Nat))
    (parseCbor : List Nat → Option QTokenPayload) (now : Int) (p : QTokenPayload)
    (hkey : keyIdOk = true) (hsig : dualSigOk = true)
    (hdec : QToken.decryptPayload decryptResult parseCbor = .ok p)
    (hexp : now ≤ p.exp + v.clockSkewSeconds)
    (hnbf : now ≥ p.nbf - v.clockSkewSeconds)
    (hiss : p.iss = v.expectedIssuer)
    (haud : v.expectedAudience ∉ p.aud) :
    v.validate t keyIdOk dualSigOk decryptResult parseCbor now =
      .error (.tokenValidation .invalidAudience) := by
  subst hkey hsig
  rw [QTokenValidator.validate, QToken.verifySignatures]
  simp only [Bool.not_true, Bool.false_eq_true, if_false, hdec]
  rw [if_neg (by omega), if_neg (by omega), if_neg (by simp [hiss]), if_pos haud]

/-- C2 witness: the S2 scenario.  The S1 token (issuer
`https://auth.example.com`, audience `https://api.example.com`, validity
3600 s from `now = 1700000000`) validated with expected audience
`https://wrong-api.example.com` yields E007. -/
theorem C2_audience_mismatch_witness :
    QTokenValidator.validate
      ⟨"https://auth.example.com", "https://wrong-api.example.com", 60⟩
      ⟨⟨1, 1, List.replicate 32 0, 0⟩, ⟨List.replicate 24 0, []⟩,
        ⟨List.replicate 64 0, List.replicate 3309 0⟩,
        ⟨List.replicate 32 0, List.replicate 32 0, List.replicate 32 0⟩⟩
      true true (some [0])
      (fun _ => some (QTokenPayload.new 1700000000 [117, 115, 101, 114]
        "https://auth.example.com" ["https://api.example.com"]
        "urn:qauth:policy:default" 3600 (List.replicate 16 0) (List.replicate 16 0)))
      1700000000 =
      .error (.tokenValidation .invalidAudience) := by
  apply C2_audience_mismatch (p := QTokenPayload.new 1700000000 [117, 115, 101, 114]
    "https://auth.example.com" ["https://api.example.com"]
    "urn:qauth:policy:default" 3600 (List.replicate 16 0) (List.replicate 16 0))
  · rfl
  · rfl
  · rfl
  · show (1700000000 : Int) ≤ 1700000000 + 3600 + 60
    norm_num
  · show (1700000000 : Int) ≥ 1700000000 - 60
    norm_num
  · rfl
  · show "https://wrong-api.example.com" ∉ ["https://api.example.com"]
    simp

/-- C2 counterexample.  The claim as stated omits the issuer check: this
concrete token passes the signature, decryption, and time checks and its
`aud` list does not contain the expected audience, yet `validate` returns
E008 (`InvalidIssuer`), not E007, because its issuer also mismatches and the
issuer comparison runs first. -/
theorem C2_audience_mismatch_counterexample :
    QTokenValidator.validate
        ⟨"https://other.example.com", "https://wrong-api.example.com", 60⟩
        ⟨⟨1, 1, List.replicate 32 0, 0⟩, ⟨List.replicate 24 0, []⟩,
          ⟨List.replicate 64 0, List.replicate 3309 0⟩,
          ⟨List.replicate 32 0, List.replicate 32 0, List.replicate 32 0⟩⟩
        true true (some [0])
        (fun _ => some (QTokenPayload.new 1700000000 [117, 115, 101, 114]
          "https://auth.example.com" ["https://api.example.com"]
          "urn:qauth:policy:default" 3600 (List.replicate 16 0) (List.replicate 16 0)))
        1700000000 =
      .error (.tokenValidation .invalidIssuer) ∧
    ErrorCode.invalidIssuer ≠ ErrorCode.invalidAudience ∧
    ErrorCode.invalidIssuer.code = "E008" ∧ ErrorCode.invalidAudience.code = "E007" := by
  refine ⟨?_, by decide, rfl, rfl⟩
  rw [QTokenValidator.validate, QToken.verifySignatures]
  simp only [Bool.not_true, Bool.false_eq_true, if_false]
  simp only [show QToken.decryptPayload (some [0])
      (fun _ => some (QTokenPayload.new 1700000000 [117, 115, 101, 114]
        "https://auth.example.com" ["https://api.example.com"]
        "urn:qauth:policy:default" 3600 (List.replicate 16 0) (List.replicate 16 0))) =
      .ok (QTokenPayload.new 1700000000 [117, 115, 101, 114]
        "https://auth.example.com" ["https://api.example.com"]
        "urn:qauth:policy:default" 3600 (List.replicate 16 0) (List.replicate 16 0)) from rfl]
  rw [if_neg (by norm_num [QTokenPayload.new]), if_neg (by norm_num [QTokenPayload.new])]
  rw [if_pos (by simp [QTokenPayload.new])]

/-! ### Policy engine (qauth/rust/src/policy.rs)

The rule-matching subsystem (`matches_rule`: glob-pattern resource match,
action match, and the time / IP / device / MFA / custom condition checks,
which involve regular expressions, IP-address parsing and f64 comparisons)
enters `evaluate` as a function parameter `matchesRule`; in the source it is the
closure `|rule| self.matches_rule(rule, context)` over the fixed evaluation
context.  Claims about rule selection and default-deny quantify over it. -/

/-- Policy effect (`Effect`). -/
inductive Effect where
  | allow
  | deny
deriving DecidableEq, Repr

/-- Audit configuration (`AuditConfig`). -/
structure AuditConfig where
  level : String
  logRequest : Bool
  logResponse : Bool
  notify : List String
  alertOnDeny : Bool
deriving DecidableEq, Repr

/-- Time-based condition (`TimeCondition`). -/
structure TimeCondition where
  after : Option String
  before : Option String
  days : Option (List String)
  timezone : Option String
  notHolidays : Bool
deriving DecidableEq, Repr

/-- IP-based condition (`IpCondition`). -/
structure IpCondition where
  allowRanges : List String
  denyRanges : List String
  requireVpn : Bool
  geoAllow : List String
  geoDeny : List String
deriving DecidableEq, Repr

/-- Device condition (`DeviceCondition`). -/
structure DeviceCondition where
  types : List String
  os : List String
  managed : Bool
  attestationRequired : Bool
  minSecurityLevel : Option Int
deriving DecidableEq, Repr

/-- MFA condition (`MfaCondition`). -/
structure MfaCondition where
  required : Bool
  methods : List String
  maxAgeMinutes : Option Int
  stepUpFor : List String
deriving DecidableEq, Repr

/-- Relationship condition (`RelationshipCondition`). -/
structure RelationshipCondition where
  subjectIs : String
  ofResource : Bool
deriving DecidableEq, Repr

/-- Custom attribute condition (`CustomCondition`); `serde_json` values are
abstracted to their serialized text (no claim inspects them). -/
inductive CustomCondition where
  | eqCond (v : String)
  | neCond (v : String)
  | gtCond (v : String)
  | gteCond (v : String)
  | ltCond (v : String)
  | lteCond (v : String)
  | inCond (vs : List String)
  | notInCond (vs : List String)
  | containsCond (s : String)
  | matchesCond (pat : String)
deriving DecidableEq, Repr

/-- Rule conditions (`Conditions`). -/
structure Conditions where
  time : Option TimeCondition
  ip : Option IpCondition
  device : Option DeviceCondition
  mfa : Option MfaCondition
  relationship : Option RelationshipCondition
  custom : List (String × CustomCondition)
deriving DecidableEq, Repr

/-- Authorization rule (`Rule`). -/
structure Rule where
  id : Option String
  effect : Effect
  resources : List String
  actions : List String
  conditions : Conditions
  priority : Int
  audit : Option AuditConfig
deriving DecidableEq, Repr

/-- Default policy behavior (`PolicyDefaults`). -/
structure PolicyDefaults where
  effect : Effect
  auditUnmatched : Bool
  requireExplicitAllow : Bool
deriving DecidableEq, Repr

/-- Policy document (`Policy`); `validFrom`/`validUntil` are Unix-second
timestamps (`DateTime<Utc>` in the source), `extendsId` models the
`extends` field, and metadata values are abstracted to text. -/
structure Policy where
  id : String
  version : String
  name : Option String
  description : Option String
  issuer : String
  validFrom : Option Int
  validUntil : Option Int
  extendsId : Option String
  rules : List Rule
  defaults : PolicyDefaults
  metadata : List (String × String)

/-- Policy evaluation result (`EvaluationResult`). -/
structure EvaluationResult where
  effect : Effect
  matchedRule : Option String
  reason : String
  audit : Option AuditConfig
deriving DecidableEq, Repr

/-- Allow result (`EvaluationResult::allow`). -/
def EvaluationResult.allow (ruleId : Option String) : EvaluationResult :=
  ⟨.allow, ruleId, "Allowed by policy rule", none⟩

/-- Deny result (`EvaluationResult::deny`). -/
def EvaluationResult.deny (reason : String) (ruleId : Option String) : EvaluationResult :=
  ⟨.deny, ruleId, reason, none⟩

/-- Default-deny result (`EvaluationResult::default_deny`): effect is
hard-coded to `Deny`, independent of the policy's `defaults.effect`. -/
def EvaluationResult.defaultDeny : EvaluationResult :=
  ⟨.deny, none, "No matching rule, default deny", none⟩

/-- Descending-priority comparator: `rules.sort_by(|a, b|
b.priority.cmp(&a.priority))` keeps `a` before `b` exactly when
`b.priority ≤ a.priority`; Rust's `sort_by` is a stable merge sort, modelled
by `List.mergeSort` with this comparator. -/
def ruleLE (a b : Rule) : Bool := decide (b.priority ≤ a.priority)

/-- Result derived from the first matching rule (the `match rule.effect`
arm of `PolicyEngine::evaluate`, with the rule's audit config attached). -/
def resultForRule (rule : Rule) : EvaluationResult :=
  { (match rule.effect with
     | .allow => EvaluationResult.allow rule.id
     | .deny => EvaluationResult.deny "Denied by policy rule" rule.id) with
    audit := rule.audit }

/-- The first-matching-rule loop of `PolicyEngine::evaluate`; `matches_rule`
errors (bad time format, bad regex) propagate. -/
def evalRulesFirstMatch (matchesRule : Rule → Except QAuthError Bool) :
    List Rule → Except QAuthError (Option Rule)
  | [] => .ok none
  | r :: rest =>
    match matchesRule r with
    | .error e => .error e
    | .ok true => .ok (some r)
    | .ok false => evalRulesFirstMatch matchesRule rest

/-- Policy evaluation (`PolicyEngine::evaluate`, after the policy lookup):
validity window, stable sort by descending priority, first matching rule,
default deny. -/
def PolicyEngine.evaluatePolicy (matchesRule : Rule → Except QAuthError Bool)
    (policy : Policy) (requestTimestamp : Int) : Except QAuthError EvaluationResult :=
  if policy.validFrom.any (fun vf => requestTimestamp < vf) then
    .ok (EvaluationResult.deny "Policy not yet valid" none)
  else if policy.validUntil.any (fun vu => requestTimestamp > vu) then
    .ok (EvaluationResult.deny "Policy expired" none)
  else
    match evalRulesFirstMatch matchesRule (policy.rules.mergeSort ruleLE) with
    | .error e => .error e
    | .ok none => .ok EvaluationResult.defaultDeny
    | .ok (some rule) => .ok (resultForRule rule)

/-- Policy lookup plus evaluation (`PolicyEngine::evaluate`); the engine's
`HashMap<String, Policy>` is modelled as an association list. -/
def PolicyEngine.evaluate (policies : List (String × Policy))
    (matchesRule : Rule → Except QAuthError Bool) (policyId : String)
    (requestTimestamp : Int) : Except QAuthError EvaluationResult :=
  match policies.lookup policyId with
  | none => .error (.policyError ("Policy not found: " ++ policyId))
  | some policy => PolicyEngine.evaluatePolicy matchesRule policy requestTimestamp

theorem evalRulesFirstMatch_all_false (matchesRule : Rule → Except QAuthError Bool) :
    ∀ (L : List Rule), (∀ r ∈ L, matchesRule r = .ok false) →
      evalRulesFirstMatch matchesRule L = .ok none
  | [], _ => rfl
  | r :: rest, h => by
      rw [evalRulesFirstMatch, h r (by simp)]
      exact evalRulesFirstMatch_all_false matchesRule rest (fun x hx => h x (by simp [hx]))

/-- C3 (amended).  For every loaded policy and evaluation context in which
no rule matches (after the validity-window check passes),
`PolicyEngine::evaluate` returns a result with `matched_rule = none` whose
effect is the hard-coded `Deny` of `EvaluationResult::default_deny` — not
the policy's `defaults.effect`, which the code never consults (see the
counterexample with `defaults.effect = allow`). -/
theorem C3_default_deny (policies : List (String × Policy))
    (matchesRule : Rule → Except QAuthError Bool) (policyId : String)
    (ts : Int) (policy : Policy)
    (hlook : policies.lookup policyId = some policy)
    (hfrom : ∀ vf, policy.validFrom = some vf → vf ≤ ts)
    (huntil : ∀ vu, policy.validUntil = some vu → ts ≤ vu)
    (hnone : ∀ r ∈ policy.rules, matchesRule r = .ok false) :
    PolicyEngine.evaluate policies matchesRule policyId ts =
      .ok ⟨.deny, none, "No matching rule, default deny", none⟩ := by
  rw [PolicyEngine.evaluate]
  simp only [hlook]
  rw [PolicyEngine.evaluatePolicy]
  have h1 : ¬ (policy.validFrom.any fun vf => ts < vf) = true := by
    cases hvf : policy.validFrom with
    | none => simp [Option.any]
    | some vf =>
        have := hfrom vf hvf
        simp [Option.any]
        omega
  have h2 : ¬ (policy.validUntil.any fun vu => ts > vu) = true := by
    cases hvu : policy.validUntil with
    | none => simp [Option.any]
    | some vu =>
        have := huntil vu hvu
        simp [Option.any]
        omega
  rw [if_neg h1, if_neg h2, evalRulesFirstMatch_all_false matchesRule _
    (fun r hr => hnone r (List.mem_mergeSort.mp hr))]
  rfl

/-- C3 witness: a policy with one rule, a matcher under which it does not
match, and a passing validity window yield the default-deny result. -/
theorem C3_default_deny_witness :
    PolicyEngine.evaluate
      [("urn:qauth:policy:test",
        ⟨"urn:qauth:policy:test", "2026-01-30", none, none,
          "https://auth.example.com", some 100, some 2000000000, none,
          [⟨some "rule-1", .allow, ["projects/*"], ["read"],
            ⟨none, none, none, none, none, []⟩, 100, none⟩],
          ⟨.deny, false, true⟩, []⟩)]
      (fun _ => .ok false) "urn:qauth:policy:test" 1700000000 =
      .ok ⟨.deny, none, "No matching rule, default deny", none⟩ := by
  apply C3_default_deny _ _ _ _ (⟨"urn:qauth:policy:test", "2026-01-30", none, none,
    "https://auth.example.com", some 100, some 2000000000, none,
    [⟨some "rule-1", .allow, ["projects/*"], ["read"],
      ⟨none, none, none, none, none, []⟩, 100, none⟩],
    ⟨.deny, false, true⟩, []⟩)
  · rfl
  · intro vf hvf
    simp at hvf
    omega
  · intro vu hvu
    simp at hvu
    omega
  · intro r _
    rfl

/-- C3 counterexample.  The claim as stated says the unmatched result's
effect equals the policy's `defaults.effect`; for this concrete policy with
`defaults.effect = allow` and no rules, `evaluate` returns effect `Deny`
(the hard-coded default-deny), which differs from `defaults.effect`. -/
theorem C3_default_deny_counterexample :
    PolicyEngine.evaluate
        [("urn:qauth:policy:allow-default",
          ⟨"urn:qauth:policy:allow-default", "2026-01-30", none, none,
            "https://auth.example.com", none, none, none, [],
            ⟨.allow, false, true⟩, []⟩)]
        (fun _ => .ok false) "urn:qauth:policy:allow-default" 0 =
      .ok ⟨.deny, none, "No matching rule, default deny", none⟩ ∧
    (⟨.allow, false, true⟩ : PolicyDefaults).effect = .allow ∧
    Effect.deny ≠ Effect.allow := by
  refine ⟨?_, rfl, by decide⟩
  simp [PolicyEngine.evaluate, PolicyEngine.evaluatePolicy, List.lookup,
    EvaluationResult.defaultDeny, evalRulesFirstMatch, Option.any, List.mergeSort_nil]

theorem ruleLE_trans : ∀ (a b c : Rule),
    ruleLE a b = true → ruleLE b c = true → ruleLE a c = true := by
  intro a b c hab hbc
  simp only [ruleLE, decide_eq_true_eq] at *
  omega

theorem ruleLE_total : ∀ (a b : Rule), (ruleLE a b || ruleLE b a) = true := by
  intro a b
  simp only [ruleLE, Bool.or_eq_true, decide_eq_true_eq]
  omega

theorem evalRulesFirstMatch_pure (matchesRule : Rule → Except QAuthError Bool)
    (m : Rule → Bool) :
    ∀ (L : List Rule), (∀ r ∈ L, matchesRule r = .ok (m r)) →
      evalRulesFirstMatch matchesRule L = .ok (L.find? m)
  | [], _ => rfl
  | r :: rest, h => by
      have hr := h r (by simp)
      rw [evalRulesFirstMatch, hr]
      cases hm : m r
      · rw [List.find?_cons_of_neg _ (by simp [hm])]
        exact evalRulesFirstMatch_pure matchesRule m rest (fun x hx => h x (by simp [hx]))
      · rw [List.find?_cons_of_pos _ hm]

theorem find?_eq_some_split {α : Type} (p : α → Bool) :
    ∀ (l : List α) (c : α), l.find? p = some c →
      ∃ l₁ l₂, l = l₁ ++ c :: l₂ ∧ ∀ x ∈ l₁, p x = false
  | [], c, h => by simp [List.find?] at h
  | a :: l, c, h => by
      cases hpa : p a
      · rw [List.find?_cons_of_neg _ (by simp [hpa])] at h
        obtain ⟨l₁, l₂, heq, hfalse⟩ := find?_eq_some_split p l c h
        exact ⟨a :: l₁, l₂, by rw [heq]; rfl, by
          intro x hx
          rcases List.mem_cons.mp hx with rfl | hx
          · exact hpa
          · exact hfalse x hx⟩
      · rw [List.find?_cons_of_pos _ hpa] at h
        obtain rfl : a = c := by injection h
        exact ⟨[], l, rfl, by simp⟩

theorem find?_mergeSort_ruleLE (m : Rule → Bool) (rules : List Rule) (c : Rule)
    (h : (rules.mergeSort ruleLE).find? m = some c) :
    m c = true ∧ c ∈ rules ∧
    (∀ r ∈ rules, m r = true → r.priority ≤ c.priority) ∧
    ∃ i : Nat, rules[i]? = some c ∧
      ∀ (j : Nat) (r' : Rule), rules[j]? = some r' → m r' = true →
        r'.priority = c.priority → i ≤ j := by
  have hmc : m c = true := List.find?_some h
  have hcmem : c ∈ rules := List.mem_mergeSort.mp (List.mem_of_find?_eq_some h)
  have hsorted : (rules.mergeSort ruleLE).Pairwise (fun a b => ruleLE a b = true) :=
    List.sorted_mergeSort ruleLE_trans ruleLE_total rules
  obtain ⟨l₁, l₂, hsplit, hl₁⟩ := find?_eq_some_split m _ c h
  have hmax : ∀ r ∈ rules, m r = true → r.priority ≤ c.priority := by
    intro r hr hmr
    have hrs : r ∈ rules.mergeSort ruleLE := List.mem_mergeSort.mpr hr
    rw [hsplit] at hrs hsorted
    rcases List.mem_append.mp hrs with h1 | h1
    · rw [hl₁ r h1] at hmr
      exact absurd hmr (by simp)
    · rcases List.mem_cons.mp h1 with rfl | h2
      · exact le_refl _
      · have hp := (List.pairwise_cons.mp (List.pairwise_append.mp hsorted).2.1).1 r h2
        simpa [ruleLE] using hp
  refine ⟨hmc, hcmem, hmax, ?_⟩
  have henum : (List.mergeSort rules.enum (List.enumLE ruleLE)).map (fun x => x.2) =
      rules.mergeSort ruleLE := List.mergeSort_enum
  rw [← henum, List.find?_map] at h
  obtain ⟨pr, hpr, hpr2⟩ := Option.map_eq_some'.mp h
  have hprmem : pr ∈ List.mergeSort rules.enum (List.enumLE ruleLE) :=
    List.mem_of_find?_eq_some hpr
  have hgetc : rules[pr.1]? = some pr.2 :=
    List.mem_enum_iff_getElem?.mp (List.mem_mergeSort.mp hprmem)
  rw [hpr2] at hgetc
  refine ⟨pr.1, hgetc, ?_⟩
  intro j r' hj hmr' hpri
  have hjs : (j, r') ∈ List.mergeSort rules.enum (List.enumLE ruleLE) :=
    List.mem_mergeSort.mpr (List.mem_enum_iff_getElem?.mpr hj)
  obtain ⟨E₁, E₂, hsplitE, hE₁⟩ := find?_eq_some_split _ _ _ hpr
  have hsortedE : (List.mergeSort rules.enum (List.enumLE ruleLE)).Pairwise
      (fun a b => List.enumLE ruleLE a b = true) :=
    List.sorted_mergeSort (List.enumLE_trans ruleLE_trans)
      (List.enumLE_total ruleLE_total) _
  rw [hsplitE] at hjs hsortedE
  rcases List.mem_append.mp hjs with h1 | h1
  · have := hE₁ _ h1
    simp only [Function.comp] at this
    rw [this] at hmr'
    exact absurd hmr' (by simp)
  · rcases List.mem_cons.mp h1 with heq | h2
    · have : pr.1 = j := by rw [← heq]
      omega
    · have hp := (List.pairwise_cons.mp (List.pairwise_append.mp hsortedE).2.1).1 _ h2
      rw [List.enumLE] at hp
      have hle1 : ruleLE pr.2 (j, r').2 = true := by
        simp only [hpr2, ruleLE, decide_eq_true_eq]
        omega
      have hle2 : ruleLE (j, r').2 pr.2 = true := by
        simp only [hpr2, ruleLE, decide_eq_true_eq]
        omega
      rw [hle1, hle2] at hp
      simpa using hp

/-- C4 (confirmed).  Whenever at least one rule of a loaded policy matches
the evaluation context (and the matcher is error-free on the policy's
rules), `PolicyEngine::evaluate` decides by a matching rule `c` of maximum
priority among all matching rules, and among matching rules of equal
priority `c` is the one declared earliest in the policy's `rules` list:
there is a declaration index `i` holding `c` such that every matching rule
of the same priority sits at an index `j ≥ i`. -/
theorem C4_priority_selection (policies : List (String × Policy))
    (matchesRule : Rule → Except QAuthError Bool) (m : Rule → Bool)
    (policyId : String) (ts : Int) (policy : Policy)
    (hlook : policies.lookup policyId = some policy)
    (hfrom : ∀ vf, policy.validFrom = some vf → vf ≤ ts)
    (huntil : ∀ vu, policy.validUntil = some vu → ts ≤ vu)
    (hm : ∀ r ∈ policy.rules, matchesRule r = .ok (m r))
    (hex : ∃ r ∈ policy.rules, m r = true) :
    ∃ (c : Rule) (i : Nat), policy.rules[i]? = some c ∧ m c = true ∧
      PolicyEngine.evaluate policies matchesRule policyId ts = .ok (resultForRule c) ∧
      (∀ r ∈ policy.rules, m r = true → r.priority ≤ c.priority) ∧
      (∀ (j : Nat) (r' : Rule), policy.rules[j]? = some r' → m r' = true →
        r'.priority = c.priority → i ≤ j) := by
  have hsortedmem : ∀ r ∈ policy.rules.mergeSort ruleLE, matchesRule r = .ok (m r) :=
    fun r hr => hm r (List.mem_mergeSort.mp hr)
  have hfind : ∃ c, (policy.rules.mergeSort ruleLE).find? m = some c := by
    rw [← Option.isSome_iff_exists]
    rw [List.find?_isSome]
    obtain ⟨r, hr, hmr⟩ := hex
    exact ⟨r, List.mem_mergeSort.mpr hr, hmr⟩
  obtain ⟨c, hfind⟩ := hfind
  obtain ⟨hmc, hcmem, hmax, i, hi, hstab⟩ := find?_mergeSort_ruleLE m policy.rules c hfind
  refine ⟨c, i, hi, hmc, ?_, hmax, hstab⟩
  rw [PolicyEngine.evaluate]
  simp only [hlook]
  rw [PolicyEngine.evaluatePolicy]
  have h1 : ¬ (policy.validFrom.any fun vf => ts < vf) = true := by
    cases hvf : policy.validFrom with
    | none => simp [Option.any]
    | some vf =>
        have := hfrom vf hvf
        simp [Option.any]
        omega
  have h2 : ¬ (policy.validUntil.any fun vu => ts > vu) = true := by
    cases hvu : policy.validUntil with
    | none => simp [Option.any]
    | some vu =>
        have := huntil vu hvu
        simp [Option.any]
        omega
  rw [if_neg h1, if_neg h2, evalRulesFirstMatch_pure matchesRule m _ hsortedmem, hfind]

/-- Rules of the S4 scenario: priorities 100, 200, 1000 in declaration
order. -/
def s4Rules : List Rule :=
  [⟨some "rule-1", Effect.allow, ["projects/*"], ["read", "list"],
      ⟨none, none, none, none, none, []⟩, 100, none⟩,
    ⟨some "rule-2", Effect.allow, ["projects/123"], ["read", "write", "delete"],
      ⟨none, none, none, none, none, []⟩, 200, none⟩,
    ⟨some "rule-3", Effect.deny, ["admin/**"], ["*"],
      ⟨none, none, none, none, none, []⟩, 1000, none⟩]

/-- The S4 policy holding `s4Rules`. -/
def s4Policy : Policy :=
  ⟨"urn:qauth:policy:test", "2026-01-30", none, none,
    "https://auth.example.com", none, none, none, s4Rules,
    ⟨Effect.deny, false, true⟩, []⟩

/-- A matcher under which the priority-100 and priority-200 rules match and
the priority-1000 rule does not. -/
def s4Match (r : Rule) : Bool := r.priority != 1000

/-- C4 witness: the S4-shaped policy evaluated where the priority-100 and
priority-200 rules both match: the chosen rule has maximal priority among
the matching ones and is earliest-declared within its priority. -/
theorem C4_priority_selection_witness :
    ∃ (c : Rule) (i : Nat), s4Policy.rules[i]? = some c ∧ s4Match c = true ∧
      PolicyEngine.evaluate [("urn:qauth:policy:test", s4Policy)]
        (fun r => .ok (s4Match r)) "urn:qauth:policy:test" 1700000000 =
        .ok (resultForRule c) ∧
      (∀ r ∈ s4Policy.rules, s4Match r = true → r.priority ≤ c.priority) ∧
      (∀ (j : Nat) (r' : Rule), s4Policy.rules[j]? = some r' → s4Match r' = true →
        r'.priority = c.priority → i ≤ j) := by
  apply C4_priority_selection _ _ _ _ _ s4Policy
  · rfl
  · intro vf hvf
    simp [s4Policy] at hvf
  · intro vu hvu
    simp [s4Policy] at hvu
  · intro r _
    rfl
  · exact ⟨⟨some "rule-2", Effect.allow, ["projects/123"], ["read", "write", "delete"],
      ⟨none, none, none, none, none, []⟩, 200, none⟩, by simp [s4Policy, s4Rules], by decide⟩

/-! ### Proof of possession (qauth/rust/src/proof.rs)

`PROOF_MAX_AGE_SECONDS = 60`, `NONCE_SIZE = 16`.  SHA-256 and Ed25519
verification are black boxes and enter as function parameters.  The
validator's interior mutability (`Mutex<NonceCache>`) is modelled by
explicit state passing: `validate` returns the result together with the
cache state after the call.  The source queries the clock twice (once in
milliseconds for the age checks, once in seconds inside the nonce cache);
both instants enter as parameters. -/

/-- Time-windowed nonce cache (`NonceCache`); the `HashSet` is modelled as
a list of nonces without duplicates of interest. -/
structure NonceCache where
  nonces : List (List Nat)
  windowStart : Int
  windowSizeSeconds : Int

/-- Check-and-mark (`NonceCache::check_and_mark`): reset the window when
stale, then insert; returns `true` exactly when the nonce was not yet
present (`HashSet::insert`). -/
def NonceCache.checkAndMark (c : NonceCache) (nonce : List Nat) (now : Int) :
    Bool × NonceCache :=
  let c' := if now - c.windowStart > c.windowSizeSeconds then
      { nonces := [], windowStart := now, windowSizeSeconds := c.windowSizeSeconds }
    else c
  if nonce ∈ c'.nonces then (false, c')
  else (true, { c' with nonces := nonce :: c'.nonces })

/-- Proof-of-possession record (`ProofOfPossession`). -/
structure ProofOfPossession where
  timestamp : Nat
  nonce : List Nat
  method : String
  uri : String
  bodyHash : List Nat
  tokenHash : List Nat
  signature : List Nat

/-- Canonical signing input (`ProofOfPossession::create_signing_message`):
`timestamp_be || nonce || method || uri || body_hash || token_hash`. -/
def ProofOfPossession.createSigningMessage (timestamp : Nat) (nonce : List Nat)
    (method uri : String) (bodyHash tokenHash : List Nat) : List Nat :=
  u64be timestamp ++ nonce ++ strBytes method ++ strBytes uri ++ bodyHash ++ tokenHash

/-- i64-to-u64 cast (`as u64`). -/
def toU64 (i : Int) : Nat := (i % (2 ^ 64 : Int)).toNat

/-- Validator configuration (`ProofValidator`); the client public key acts
only through the black-box `edVerify` parameter of `validate`. -/
structure ProofValidator where
  maxClockSkewSeconds : Int

/-- Proof validation (`ProofValidator::validate`): age check (u64
saturating subtraction is `Nat` subtraction), future-timestamp check
(wrapping u64 addition), nonce check-and-mark, then method, URI, body hash,
token hash and signature checks.  Every rejection is the single opaque
`invalid_proof`.  Returns the result and the cache state after the call. -/
def ProofValidator.validate (v : ProofValidator)
    (sha256 : List Nat → List Nat) (edVerify : List Nat → List Nat → Bool)
    (cache : NonceCache) (proof : ProofOfPossession)
    (expectedMethod expectedUri : String) (body : Option (List Nat))
    (tokenBytes : List Nat) (nowMs : Nat) (nowS : Int) :
    Except QAuthError Unit × NonceCache :=
  if nowMs - proof.timestamp > toU64 (v.maxClockSkewSeconds * 1000) then
    (.error .invalidProof, cache)
  else if proof.timestamp > (nowMs + toU64 (v.maxClockSkewSeconds * 1000)) % 2 ^ 64 then
    (.error .invalidProof, cache)
  else
    match NonceCache.checkAndMark cache proof.nonce nowS with
    | (fresh, cache') =>
      if !fresh then (.error .invalidProof, cache')
      else if proof.method ≠ expectedMethod then (.error .invalidProof, cache')
      else if proof.uri ≠ expectedUri then (.error .invalidProof, cache')
      else if proof.bodyHash ≠ (body.map sha256).getD (List.replicate 32 0) then
        (.error .invalidProof, cache')
      else if proof.tokenHash ≠ sha256 tokenBytes then (.error .invalidProof, cache')
      else if edVerify (ProofOfPossession.createSigningMessage proof.timestamp
          proof.nonce proof.method proof.uri proof.bodyHash proof.tokenHash)
          proof.signature then
        (.ok (), cache')
      else (.error .invalidProof, cache')

/-- C5 (confirmed).  Within one nonce-cache window (no window reset occurs
at any of the three calls), the first `validate` call presenting a nonce
with all other fields valid succeeds and inserts the nonce; every
subsequent call presenting the same nonce — here an arbitrary proof `p₂`
with that nonce passing the timestamp checks — is rejected with
`invalid_proof` and leaves the cache unchanged; and a freshly generated
proof `p₃` carrying a new nonce is accepted immediately afterwards. -/
theorem C5_nonce_replay (v : ProofValidator)
    (sha256 : List Nat → List Nat) (edVerify : List Nat → List Nat → Bool)
    (c₀ : NonceCache) (p₁ p₂ p₃ : ProofOfPossession)
    (em eu : String) (body : Option (List Nat)) (tok : List Nat)
    (nowMs₁ nowMs₂ nowMs₃ : Nat) (nowS₁ nowS₂ nowS₃ : Int)
    (hw₁ : nowS₁ - c₀.windowStart ≤ c₀.windowSizeSeconds)
    (hw₂ : nowS₂ - c₀.windowStart ≤ c₀.windowSizeSeconds)
    (hw₃ : nowS₃ - c₀.windowStart ≤ c₀.windowSizeSeconds)
    (hts₁a : nowMs₁ - p₁.timestamp ≤ toU64 (v.maxClockSkewSeconds * 1000))
    (hts₁b : p₁.timestamp ≤ (nowMs₁ + toU64 (v.maxClockSkewSeconds * 1000)) % 2 ^ 64)
    (hn₁ : p₁.nonce ∉ c₀.nonces)
    (hm₁ : p₁.method = em) (hu₁ : p₁.uri = eu)
    (hb₁ : p₁.bodyHash = (body.map sha256).getD (List.replicate 32 0))
    (hh₁ : p₁.tokenHash = sha256 tok)
    (hs₁ : edVerify (ProofOfPossession.createSigningMessage p₁.timestamp p₁.nonce
      p₁.method p₁.uri p₁.bodyHash p₁.tokenHash) p₁.signature = true)
    (hn₂ : p₂.nonce = p₁.nonce)
    (hts₂a : nowMs₂ - p₂.timestamp ≤ toU64 (v.maxClockSkewSeconds * 1000))
    (hts₂b : p₂.timestamp ≤ (nowMs₂ + toU64 (v.maxClockSkewSeconds * 1000)) % 2 ^ 64)
    (hn₃ : p₃.nonce ∉ p₁.nonce :: c₀.nonces)
    (hts₃a : nowMs₃ - p₃.timestamp ≤ toU64 (v.maxClockSkewSeconds * 1000))
    (hts₃b : p₃.timestamp ≤ (nowMs₃ + toU64 (v.maxClockSkewSeconds * 1000)) % 2 ^ 64)
    (hm₃ : p₃.method = em) (hu₃ : p₃.uri = eu)
    (hb₃ : p₃.bodyHash = (body.map sha256).getD (List.replicate 32 0))
    (hh₃ : p₃.tokenHash = sha256 tok)
    (hs₃ : edVerify (ProofOfPossession.createSigningMessage p₃.timestamp p₃.nonce
      p₃.method p₃.uri p₃.bodyHash p₃.tokenHash) p₃.signature = true) :
    v.validate sha256 edVerify c₀ p₁ em eu body tok nowMs₁ nowS₁ =
      (.ok (), ⟨p₁.nonce :: c₀.nonces, c₀.windowStart, c₀.windowSizeSeconds⟩) ∧
    v.validate sha256 edVerify ⟨p₁.nonce :: c₀.nonces, c₀.windowStart,
        c₀.windowSizeSeconds⟩ p₂ em eu body tok nowMs₂ nowS₂ =
      (.error .invalidProof, ⟨p₁.nonce :: c₀.nonces, c₀.windowStart,
        c₀.windowSizeSeconds⟩) ∧
    (v.validate sha256 edVerify ⟨p₁.nonce :: c₀.nonces, c₀.windowStart,
        c₀.windowSizeSeconds⟩ p₃ em eu body tok nowMs₃ nowS₃).1 = .ok () := by
  have hcm₁ : NonceCache.checkAndMark c₀ p₁.nonce nowS₁ =
      (true, ⟨p₁.nonce :: c₀.nonces, c₀.windowStart, c₀.windowSizeSeconds⟩) := by
    rw [NonceCache.checkAndMark]
    simp only [if_neg (show ¬ nowS₁ - c₀.windowStart > c₀.windowSizeSeconds by omega)]
    rw [if_neg hn₁]
  have hcm₂ : NonceCache.checkAndMark ⟨p₁.nonce :: c₀.nonces, c₀.windowStart,
      c₀.windowSizeSeconds⟩ p₂.nonce nowS₂ =
      (false, ⟨p₁.nonce :: c₀.nonces, c₀.windowStart, c₀.windowSizeSeconds⟩) := by
    rw [NonceCache.checkAndMark]
    simp only [if_neg (show ¬ nowS₂ - c₀.windowStart > c₀.windowSizeSeconds by omega)]
    rw [if_pos (by rw [hn₂]; exact List.mem_cons_self _ _)]
  have hcm₃ : NonceCache.checkAndMark ⟨p₁.nonce :: c₀.nonces, c₀.windowStart,
      c₀.windowSizeSeconds⟩ p₃.nonce nowS₃ =
      (true, ⟨p₃.nonce :: p₁.nonce :: c₀.nonces, c₀.windowStart,
        c₀.windowSizeSeconds⟩) := by
    rw [NonceCache.checkAndMark]
    simp only [if_neg (show ¬ nowS₃ - c₀.windowStart > c₀.windowSizeSeconds by omega)]
    rw [if_neg hn₃]
  refine ⟨?_, ?_, ?_⟩
  · rw [ProofValidator.validate, if_neg (by omega), if_neg (by omega)]
    simp only [hcm₁, Bool.not_true, Bool.false_eq_true, if_false]
    rw [if_neg (by simp [hm₁]), if_neg (by simp [hu₁]), if_neg (by simp [hb₁]),
      if_neg (by simp [hh₁]), if_pos hs₁]
  · rw [ProofValidator.validate, if_neg (by omega), if_neg (by omega)]
    simp only [hcm₂, Bool.not_false, if_true]
  · rw [ProofValidator.validate, if_neg (by omega), if_neg (by omega)]
    simp only [hcm₃, Bool.not_true, Bool.false_eq_true, if_false]
    rw [if_neg (by simp [hm₃]), if_neg (by simp [hu₃]), if_neg (by simp [hb₃]),
      if_neg (by simp [hh₃]), if_pos hs₃]

/-- C5 witness: a concrete validator (skew 60 s), an empty cache with a
120 s window, a valid first proof, its replay, and a fresh-nonce proof. -/
theorem C5_nonce_replay_witness :
    ProofValidator.validate ⟨60⟩ (fun _ => List.replicate 32 1) (fun _ _ => true)
        ⟨[], 1000, 120⟩
        ⟨1000000, List.replicate 16 2, "GET", "/api/resource",
          List.replicate 32 0, List.replicate 32 1, List.replicate 64 0⟩
        "GET" "/api/resource" none [9, 9] 1000000 1000 =
      (.ok (), ⟨[List.replicate 16 2], 1000, 120⟩) ∧
    ProofValidator.validate ⟨60⟩ (fun _ => List.replicate 32 1) (fun _ _ => true)
        ⟨[List.replicate 16 2], 1000, 120⟩
        ⟨1000000, List.replicate 16 2, "GET", "/api/resource",
          List.replicate 32 0, List.replicate 32 1, List.replicate 64 0⟩
        "GET" "/api/resource" none [9, 9] 1000000 1000 =
      (.error .invalidProof, ⟨[List.replicate 16 2], 1000, 120⟩) ∧
    (ProofValidator.validate ⟨60⟩ (fun _ => List.replicate 32 1) (fun _ _ => true)
        ⟨[List.replicate 16 2], 1000, 120⟩
        ⟨1000000, List.replicate 16 3, "GET", "/api/resource",
          List.replicate 32 0, List.replicate 32 1, List.replicate 64 0⟩
        "GET" "/api/resource" none [9, 9] 1000000 1000).1 = .ok () := by
  apply C5_nonce_replay <;> first | rfl | decide

/-- C10 (confirmed).  `ProofValidator::validate` is not atomic with respect
to the nonce cache: when a proof passes the timestamp and nonce checks but
is then rejected for a method, URI, body-hash, token-hash, or signature
mismatch, its nonce has nevertheless been inserted into the cache, and any
later call in the same window presenting that nonce — in particular one
with every other field corrected — is rejected at the nonce check. -/
theorem C10_nonce_inserted_on_late_failure (v : ProofValidator)
    (sha256 : List Nat → List Nat) (edVerify : List Nat → List Nat → Bool)
    (c₀ : NonceCache) (p : ProofOfPossession)
    (em eu : String) (body : Option (List Nat)) (tok : List Nat)
    (nowMs : Nat) (nowS : Int)
    (hw : nowS - c₀.windowStart ≤ c₀.windowSizeSeconds)
    (htsa : nowMs - p.timestamp ≤ toU64 (v.maxClockSkewSeconds * 1000))
    (htsb : p.timestamp ≤ (nowMs + toU64 (v.maxClockSkewSeconds * 1000)) % 2 ^ 64)
    (hn : p.nonce ∉ c₀.nonces)
    (hmis : p.method ≠ em ∨ p.uri ≠ eu ∨
      p.bodyHash ≠ (body.map sha256).getD (List.replicate 32 0) ∨
      p.tokenHash ≠ sha256 tok ∨
      edVerify (ProofOfPossession.createSigningMessage p.timestamp p.nonce
        p.method p.uri p.bodyHash p.tokenHash) p.signature = false) :
    v.validate sha256 edVerify c₀ p em eu body tok nowMs nowS =
      (.error .invalidProof, ⟨p.nonce :: c₀.nonces, c₀.windowStart,
        c₀.windowSizeSeconds⟩) ∧
    ∀ (q : ProofOfPossession) (nowMs' : Nat) (nowS' : Int),
      q.nonce = p.nonce →
      nowS' - c₀.windowStart ≤ c₀.windowSizeSeconds →
      nowMs' - q.timestamp ≤ toU64 (v.maxClockSkewSeconds * 1000) →
      q.timestamp ≤ (nowMs' + toU64 (v.maxClockSkewSeconds * 1000)) % 2 ^ 64 →
      (v.validate sha256 edVerify ⟨p.nonce :: c₀.nonces, c₀.windowStart,
        c₀.windowSizeSeconds⟩ q em eu body tok nowMs' nowS').1 =
        .error .invalidProof := by
  have hcm : NonceCache.checkAndMark c₀ p.nonce nowS =
      (true, ⟨p.nonce :: c₀.nonces, c₀.windowStart, c₀.windowSizeSeconds⟩) := by
    rw [NonceCache.checkAndMark]
    simp only [if_neg (show ¬ nowS - c₀.windowStart > c₀.windowSizeSeconds by omega)]
    rw [if_neg hn]
  constructor
  · rw [ProofValidator.validate, if_neg (by omega), if_neg (by omega)]
    simp only [hcm, Bool.not_true, Bool.false_eq_true, if_false]
    by_cases hA : p.method ≠ em
    · rw [if_pos hA]
    · rw [if_neg hA]
      by_cases hB : p.uri ≠ eu
      · rw [if_pos hB]
      · rw [if_neg hB]
        by_cases hC : p.bodyHash ≠ (body.map sha256).getD (List.replicate 32 0)
        · rw [if_pos hC]
        · rw [if_neg hC]
          by_cases hD : p.tokenHash ≠ sha256 tok
          · rw [if_pos hD]
          · rw [if_neg hD]
            have hE : edVerify (ProofOfPossession.createSigningMessage p.timestamp
                p.nonce p.method p.uri p.bodyHash p.tokenHash) p.signature = false := by
              rcases hmis with h | h | h | h | h
              · exact (hA h).elim
              · exact (hB h).elim
              · exact (hC h).elim
              · exact (hD h).elim
              · exact h
            rw [if_neg (by simp [hE])]
  · intro q nowMs' nowS' hq hw' hq1 hq2
    have hcm' : NonceCache.checkAndMark ⟨p.nonce :: c₀.nonces, c₀.windowStart,
        c₀.windowSizeSeconds⟩ q.nonce nowS' =
        (false, ⟨p.nonce :: c₀.nonces, c₀.windowStart, c₀.windowSizeSeconds⟩) := by
      rw [NonceCache.checkAndMark]
      simp only [if_neg (show ¬ nowS' - c₀.windowStart > c₀.windowSizeSeconds by omega)]
      rw [if_pos (by rw [hq]; exact List.mem_cons_self _ _)]
    rw [ProofValidator.validate, if_neg (by omega), if_neg (by omega)]
    simp only [hcm', Bool.not_false, if_true]

/-- C10 witness: a proof with a wrong method (expected `GET`, proof says
`POST`) is rejected yet its nonce is cached, and a corrected proof reusing
the nonce is rejected at the nonce check. -/
theorem C10_nonce_inserted_on_late_failure_witness :
    ProofValidator.validate ⟨60⟩ (fun _ => List.replicate 32 1) (fun _ _ => true)
        ⟨[], 1000, 120⟩
        ⟨1000000, List.replicate 16 2, "POST", "/api/resource",
          List.replicate 32 0, List.replicate 32 1, List.replicate 64 0⟩
        "GET" "/api/resource" none [9, 9] 1000000 1000 =
      (.error .invalidProof, ⟨[List.replicate 16 2], 1000, 120⟩) ∧
    ∀ (q : ProofOfPossession) (nowMs' : Nat) (nowS' : Int),
      q.nonce = List.replicate 16 2 →
      nowS' - 1000 ≤ 120 →
      nowMs' - q.timestamp ≤ toU64 (60 * 1000) →
      q.timestamp ≤ (nowMs' + toU64 (60 * 1000)) % 2 ^ 64 →
      (ProofValidator.validate ⟨60⟩ (fun _ => List.replicate 32 1) (fun _ _ => true)
        ⟨[List.replicate 16 2], 1000, 120⟩ q
        "GET" "/api/resource" none [9, 9] nowMs' nowS').1 = .error .invalidProof := by
  apply C10_nonce_inserted_on_late_failure <;> first | rfl | decide

/-! ### Session message channel (quantum-shield src/protocol/message.rs)

The cascading AEAD is a black box: `QShieldMessage::open`'s outcome for
each incoming frame enters `receive` as an `Except` parameter. -/

/-- QuantumShield protocol errors (protocol-level subset of
`QShieldError`). -/
inductive QShieldError where
  | authenticationFailed
  | versionMismatch (expected actual : Nat)
  | parseError
  | decryptionFailed
  | notSupported
deriving DecidableEq, Repr

/-- Decrypted frame content (`MessageContent`); the counter is a u64. -/
structure MessageContent where
  messageType : Nat
  flags : Nat
  counter : Nat
  timestamp : Option Nat
  payload : List Nat
deriving DecidableEq, Repr

/-- Message channel state (`MessageChannel`). -/
structure MessageChannel where
  sessionId : List Nat
  sendCounter : Nat
  recvCounter : Nat
  recvWindow : Nat

/-- Channel construction (`MessageChannel::new`): first 16 bytes of the
session id, counters zero, window 1024. -/
def MessageChannel.new (sessionId32 : List Nat) : MessageChannel :=
  ⟨sessionId32.take 16, 0, 0, 1024⟩

/-- Frame receive (`MessageChannel::receive`): session-id check, decrypt
(`openResult`, whose errors propagate as with `?`), replay-window check,
counter update.  `recv_counter`, `recv_window` and the frame counter are
u64, and both `recv_counter + recv_window` and `counter + 1` are plain u64
additions that wrap, modelled with explicit `% 2 ^ 64`.  Returns the
content and the updated channel. -/
def MessageChannel.receive (ch : MessageChannel) (msgSessionId : List Nat)
    (openResult : Except QShieldError MessageContent) :
    Except QShieldError (MessageContent × MessageChannel) :=
  if msgSessionId ≠ ch.sessionId then .error .authenticationFailed
  else
    openResult.bind fun content =>
      if content.counter < ch.recvCounter then .error .authenticationFailed
      else if content.counter > (ch.recvCounter + ch.recvWindow) % 2 ^ 64 then
        .error .authenticationFailed
      else
        .ok (content,
          if content.counter ≥ ch.recvCounter then
            { ch with recvCounter := (content.counter + 1) % 2 ^ 64 }
          else ch)

theorem exceptBind_ok {ε α β : Type} (a : α) (f : α → Except ε β) :
    (Except.ok a : Except ε α).bind f = f a := rfl

theorem exceptBind_error {ε α β : Type} (e : ε) (f : α → Except ε β) :
    (Except.error e : Except ε α).bind f = .error e := rfl

theorem MessageChannel.receive_ok_iff (ch : MessageChannel) (sid : List Nat)
    (c content : MessageContent) (ch' : MessageChannel) :
    ch.receive sid (.ok c) = .ok (content, ch') ↔
      sid = ch.sessionId ∧ ch.recvCounter ≤ c.counter ∧
      c.counter ≤ (ch.recvCounter + ch.recvWindow) % 2 ^ 64 ∧ content = c ∧
      ch' = { ch with recvCounter := (c.counter + 1) % 2 ^ 64 } := by
  rw [MessageChannel.receive, exceptBind_ok]
  by_cases hs : sid ≠ ch.sessionId
  · rw [if_pos hs]
    simp only [reduceCtorEq, false_iff]
    intro hcon
    exact hs hcon.1
  · rw [if_neg hs]
    push_neg at hs
    by_cases h1 : c.counter < ch.recvCounter
    · rw [if_pos h1]
      simp only [reduceCtorEq, false_iff]
      intro hcon
      omega
    · rw [if_neg h1]
      by_cases h2 : c.counter > (ch.recvCounter + ch.recvWindow) % 2 ^ 64
      · rw [if_pos h2]
        simp only [reduceCtorEq, false_iff]
        intro hcon
        omega
      · rw [if_neg h2, if_pos (by omega : c.counter ≥ ch.recvCounter)]
        constructor
        · intro h
          have h3 : content = c ∧
              ch' = { ch with recvCounter := (c.counter + 1) % 2 ^ 64 } := by
            injection h with h4
            injection h4 with h5 h6
            exact ⟨h5.symm, h6.symm⟩
          exact ⟨hs, by omega, by omega, h3.1, h3.2⟩
        · intro h
          rw [h.2.2.2.1, h.2.2.2.2]

theorem MessageChannel.receive_error_of_out_of_window (ch : MessageChannel)
    (sid : List Nat) (c : MessageContent)
    (h : c.counter < ch.recvCounter ∨
      c.counter > (ch.recvCounter + ch.recvWindow) % 2 ^ 64) :
    ch.receive sid (.ok c) = .error .authenticationFailed := by
  rw [MessageChannel.receive, exceptBind_ok]
  by_cases hs : sid ≠ ch.sessionId
  · rw [if_pos hs]
  · rw [if_neg hs]
    by_cases h1 : c.counter < ch.recvCounter
    · rw [if_pos h1]
    · rw [if_neg h1,
        if_pos (by omega : c.counter > (ch.recvCounter + ch.recvWindow) % 2 ^ 64)]

/-- Counters of the frames accepted along a run of `receive` calls. -/
def MessageChannel.acceptedCounters (ch : MessageChannel) :
    List (List Nat × Except QShieldError MessageContent) → List Nat
  | [] => []
  | (sid, o) :: rest =>
    match ch.receive sid o with
    | .ok (content, ch') => content.counter :: MessageChannel.acceptedCounters ch' rest
    | .error _ => MessageChannel.acceptedCounters ch rest

/-- A frame whose decrypted counter cannot wrap the u64 counter update:
either decryption fails, or `counter + 1` stays below `2 ^ 64`. -/
def frameCounterOk (p : List Nat × Except QShieldError MessageContent) : Bool :=
  match p.2 with
  | .ok c => c.counter + 1 < 2 ^ 64
  | .error _ => true

theorem acceptedCounters_lower_bound (x : Nat) :
    ∀ (frames : List (List Nat × Except QShieldError MessageContent))
      (ch : MessageChannel), (∀ p ∈ frames, frameCounterOk p = true) →
      x ∈ ch.acceptedCounters frames → ch.recvCounter ≤ x
  | [], ch, _, h => by simp [MessageChannel.acceptedCounters] at h
  | (sid, o) :: rest, ch, hok, h => by
      rw [MessageChannel.acceptedCounters] at h
      have hokRest : ∀ p ∈ rest, frameCounterOk p = true :=
        fun p hp => hok p (by simp [hp])
      cases hr : ch.receive sid o with
      | error e =>
          rw [hr] at h
          exact acceptedCounters_lower_bound x rest ch hokRest h
      | ok pr =>
          obtain ⟨content, chNext⟩ := pr
          rw [hr] at h
          cases o with
          | error e =>
              rw [MessageChannel.receive.eq_def] at hr
              by_cases hs : sid ≠ ch.sessionId
              · rw [if_pos hs] at hr
                exact absurd hr (by simp)
              · rw [if_neg hs, exceptBind_error] at hr
                exact absurd hr (by simp)
          | ok c =>
              have hcw : c.counter + 1 < 2 ^ 64 := by
                have := hok (sid, .ok c) (by simp)
                simpa [frameCounterOk] using this
              obtain ⟨hsid, hlo, hhi, hcc, hch⟩ :=
                (MessageChannel.receive_ok_iff ch sid c content chNext).mp hr
              rcases List.mem_cons.mp h with rfl | h2
              · have hc2 : content.counter = c.counter := by rw [hcc]
                omega
              · have hle := acceptedCounters_lower_bound x rest chNext hokRest h2
                rw [hch] at hle
                simp only at hle
                rw [Nat.mod_eq_of_lt hcw] at hle
                omega

theorem acceptedCounters_pairwise :
    ∀ (frames : List (List Nat × Except QShieldError MessageContent))
      (ch : MessageChannel), (∀ p ∈ frames, frameCounterOk p = true) →
      List.Pairwise (· < ·) (ch.acceptedCounters frames)
  | [], ch, _ => by simp [MessageChannel.acceptedCounters]
  | (sid, o) :: rest, ch, hok => by
      rw [MessageChannel.acceptedCounters]
      have hokRest : ∀ p ∈ rest, frameCounterOk p = true :=
        fun p hp => hok p (by simp [hp])
      cases hr : ch.receive sid o with
      | error e => exact acceptedCounters_pairwise rest ch hokRest
      | ok pr =>
          obtain ⟨content, chNext⟩ := pr
          refine List.pairwise_cons.mpr ⟨?_, acceptedCounters_pairwise rest chNext hokRest⟩
          intro y hy
          have hlow := acceptedCounters_lower_bound y rest chNext hokRest hy
          cases o with
          | error e =>
              rw [MessageChannel.receive.eq_def] at hr
              by_cases hs : sid ≠ ch.sessionId
              · rw [if_pos hs] at hr
                exact absurd hr (by simp)
              · rw [if_neg hs, exceptBind_error] at hr
                exact absurd hr (by simp)
          | ok c =>
              have hcw : c.counter + 1 < 2 ^ 64 := by
                have := hok (sid, .ok c) (by simp)
                simpa [frameCounterOk] using this
              obtain ⟨-, -, -, hcc, hch⟩ :=
                (MessageChannel.receive_ok_iff ch sid c content chNext).mp hr
              rw [hch] at hlow
              simp only at hlow
              rw [Nat.mod_eq_of_lt hcw] at hlow
              have hc2 : content.counter = c.counter := by rw [hcc]
              omega

/-- C6 (amended).  For the session message channel (window `W = 1024` from
`MessageChannel::new`), as long as the u64 counter arithmetic does not
wrap: a received frame whose decrypted counter is below `recv_counter`, or
above `recv_counter + 1024` when that bound fits in u64, is rejected; on
every accepted frame the receiver sets `recv_counter` to
`(counter + 1) mod 2 ^ 64`, which is `counter + 1` whenever that sum fits
in u64; and along any run whose decrypted frame counters stay below
`2 ^ 64 − 1` the accepted counter values are strictly increasing, so a
previously accepted counter value is never accepted again.  The no-wrap
restrictions are forced: the source's `recv_counter + recv_window` and
`counter + 1` are wrapping u64 additions, and at the `2 ^ 64` boundary the
counter wraps to 0 and the strict-increase guarantee fails (see the
counterexample). -/
theorem C6_channel_replay_window :
    (∀ sid32 : List Nat, (MessageChannel.new sid32).recvWindow = 1024) ∧
    (∀ (ch : MessageChannel) (sid : List Nat) (c : MessageContent),
      ch.recvWindow = 1024 → ch.recvCounter + 1024 < 2 ^ 64 →
      (c.counter < ch.recvCounter ∨ c.counter > ch.recvCounter + 1024) →
      ch.receive sid (.ok c) = .error .authenticationFailed) ∧
    (∀ (ch : MessageChannel) (sid : List Nat) (c content : MessageContent)
      (ch' : MessageChannel),
      ch.receive sid (.ok c) = .ok (content, ch') →
      ch'.recvCounter = (content.counter + 1) % 2 ^ 64 ∧
      (content.counter + 1 < 2 ^ 64 → ch'.recvCounter = content.counter + 1)) ∧
    (∀ (ch : MessageChannel)
      (frames : List (List Nat × Except QShieldError MessageContent)),
      (∀ p ∈ frames, frameCounterOk p = true) →
      List.Pairwise (· < ·) (ch.acceptedCounters frames)) := by
  refine ⟨fun _ => rfl, ?_, ?_,
    fun ch frames hok => acceptedCounters_pairwise frames ch hok⟩
  · intro ch sid c hw hnw hout
    apply MessageChannel.receive_error_of_out_of_window ch sid c
    rw [hw, Nat.mod_eq_of_lt hnw]
    omega
  · intro ch sid c content ch' hr
    obtain ⟨-, -, -, hcc, hch⟩ :=
      (MessageChannel.receive_ok_iff ch sid c content ch').mp hr
    have h1 : ch'.recvCounter = (content.counter + 1) % 2 ^ 64 := by
      rw [hch, hcc]
    exact ⟨h1, fun hnw => by rw [h1, Nat.mod_eq_of_lt hnw]⟩

/-- C6 witness: the P11 scenario on a fresh channel (recv counter 0, window
1024, all counters far from the u64 boundary): counter 0 accepted advances
the counter to 1; replaying counter 0 afterwards is rejected, as is a frame
1025 ahead; a three-frame run accepts strictly increasing counters. -/
theorem C6_channel_replay_window_witness :
    (MessageChannel.new (List.replicate 32 4)).recvWindow = 1024 ∧
    MessageChannel.receive ⟨List.replicate 16 4, 0, 1, 1024⟩ (List.replicate 16 4)
      (.ok ⟨0, 0, 0, none, [1]⟩) = .error .authenticationFailed ∧
    MessageChannel.receive ⟨List.replicate 16 4, 0, 0, 1024⟩ (List.replicate 16 4)
      (.ok ⟨0, 0, 1025, none, [1]⟩) = .error .authenticationFailed ∧
    (∀ (ch' : MessageChannel) (content : MessageContent),
      MessageChannel.receive ⟨List.replicate 16 4, 0, 0, 1024⟩ (List.replicate 16 4)
        (.ok ⟨0, 0, 0, none, [1]⟩) = .ok (content, ch') →
      ch'.recvCounter = (content.counter + 1) % 2 ^ 64) ∧
    List.Pairwise (· < ·)
      (MessageChannel.acceptedCounters ⟨List.replicate 16 4, 0, 0, 1024⟩
        [(List.replicate 16 4, .ok ⟨0, 0, 0, none, [1]⟩),
          (List.replicate 16 4, .ok ⟨0, 0, 0, none, [2]⟩),
          (List.replicate 16 4, .ok ⟨0, 0, 5, none, [3]⟩)]) := by
  refine ⟨C6_channel_replay_window.1 (List.replicate 32 4), ?_, ?_, ?_, ?_⟩
  · exact C6_channel_replay_window.2.1 _ _ _ rfl (by decide) (Or.inl (by decide))
  · exact C6_channel_replay_window.2.1 _ _ _ rfl (by decide) (Or.inr (by decide))
  · intro ch' content hr
    exact (C6_channel_replay_window.2.2.1 _ _ _ _ _ hr).1
  · exact C6_channel_replay_window.2.2.2 _ _ (by decide)

/-- C6 counterexample.  The claim as stated fails on the wrapping u64
arithmetic: from a channel with `recv_counter = 2 ^ 64 − 1025` (window
1024), a frame with counter `2 ^ 64 − 1` is accepted and the update
`recv_counter = counter + 1` wraps to 0, after which a frame with the low
counter 7 is also accepted — the accepted counter sequence
`[2 ^ 64 − 1, 7]` is not strictly increasing, so the strictly-increasing /
never-re-accept guarantee does not hold for every receive operation. -/
theorem C6_channel_replay_window_counterexample :
    MessageChannel.acceptedCounters ⟨[1], 0, 2 ^ 64 - 1025, 1024⟩
        [([1], .ok ⟨0, 0, 2 ^ 64 - 1, none, []⟩), ([1], .ok ⟨0, 0, 7, none, []⟩)] =
      [2 ^ 64 - 1, 7] ∧
    ¬ List.Pairwise (· < ·) [2 ^ 64 - 1, (7 : Nat)] := by
  constructor
  · rfl
  · intro h
    have h7 := (List.pairwise_cons.mp h).1 7 (by simp)
    omega

/-! ### Dual signatures (quantum-shield src/sign/dual.rs and qauth crypto.rs)

ML-DSA, SLH-DSA, Ed25519 and SHA3-256 are black boxes entering as function
parameters.  In the source, `MlDsa::verify` and `SlhDsa::verify` wrap the
primitive verification as `Ok(bool)` and never error, so they are modelled
as Bool-valued functions. -/

/-- Dual signature with optional timestamp (`QShieldSignature`). -/
structure QShieldSignature where
  mlDsa : List Nat
  slhDsa : List Nat
  timestamp : Option Nat

/-- Dual public key (`QShieldSignPublicKey`). -/
structure QShieldSignPublicKey where
  mlDsa : List Nat
  slhDsa : List Nat

/-- Domain-separated message hash (`QShieldSign::hash_message`):
`SHA3-256("QShieldSign-v1" || u64_le(len) || msg)`. -/
def QShieldSign.hashMessage (sha3 : List Nat → List Nat) (message : List Nat) :
    List Nat :=
  sha3 (strBytes "QShieldSign-v1" ++ u64le message.length ++ message)

/-- Timestamped variant (`QShieldSign::hash_message_with_timestamp`):
`SHA3-256("QShieldSign-ts-v1" || u64_le(ts) || u64_le(len) || msg)`. -/
def QShieldSign.hashMessageWithTimestamp (sha3 : List Nat → List Nat)
    (message : List Nat) (timestamp : Nat) : List Nat :=
  sha3 (strBytes "QShieldSign-ts-v1" ++ u64le timestamp ++
    u64le message.length ++ message)

/-- The hash a signature is verified against, selected by its timestamp
field (the `if let Some(timestamp)` in `QShieldSign::verify`). -/
def QShieldSign.messageHashFor (sha3 : List Nat → List Nat) (message : List Nat)
    (signature : QShieldSignature) : List Nat :=
  match signature.timestamp with
  | some ts => QShieldSign.hashMessageWithTimestamp sha3 message ts
  | none => QShieldSign.hashMessage sha3 message

/-- Dual verification (`QShieldSign::verify`): recompute the hash, verify
both components, return the conjunction. -/
def QShieldSign.verify (sha3 : List Nat → List Nat)
    (mlVerify slhVerify : List Nat → List Nat → List Nat → Bool)
    (publicKey : QShieldSignPublicKey) (message : List Nat)
    (signature : QShieldSignature) : Bool :=
  mlVerify publicKey.mlDsa (QShieldSign.messageHashFor sha3 message signature)
      signature.mlDsa &&
    slhVerify publicKey.slhDsa (QShieldSign.messageHashFor sha3 message signature)
      signature.slhDsa

/-- QAuth dual verification (`IssuerVerifyingKeys::verify`): Ed25519 first,
then ML-DSA, each failure collapsing to the opaque `CryptoError`. -/
def IssuerVerifyingKeys.verify (edOk mlOk : Bool) : Except QAuthError Unit :=
  if !edOk then .error .cryptoError
  else if !mlOk then .error .cryptoError
  else .ok ()

/-- C7 (confirmed).  A dual signature verifies iff BOTH component
signatures verify over the same domain-separated message hash:
`QShieldSign::verify` returns true exactly when the ML-DSA and SLH-DSA
components both verify against the single recomputed hash, and the QAuth
token dual-signature check `IssuerVerifyingKeys::verify` succeeds exactly
when both the Ed25519 and ML-DSA components verify; failure of either
single component makes the dual verification fail. -/
theorem C7_dual_signature_iff :
    (∀ (sha3 : List Nat → List Nat)
      (mlVerify slhVerify : List Nat → List Nat → List Nat → Bool)
      (pk : QShieldSignPublicKey) (msg : List Nat) (sig : QShieldSignature),
      QShieldSign.verify sha3 mlVerify slhVerify pk msg sig = true ↔
        (mlVerify pk.mlDsa (QShieldSign.messageHashFor sha3 msg sig) sig.mlDsa = true ∧
         slhVerify pk.slhDsa (QShieldSign.messageHashFor sha3 msg sig) sig.slhDsa = true)) ∧
    (∀ (sha3 : List Nat → List Nat)
      (mlVerify slhVerify : List Nat → List Nat → List Nat → Bool)
      (pk : QShieldSignPublicKey) (msg : List Nat) (sig : QShieldSignature),
      (mlVerify pk.mlDsa (QShieldSign.messageHashFor sha3 msg sig) sig.mlDsa = false ∨
       slhVerify pk.slhDsa (QShieldSign.messageHashFor sha3 msg sig) sig.slhDsa = false) →
      QShieldSign.verify sha3 mlVerify slhVerify pk msg sig = false) ∧
    (∀ edOk mlOk : Bool,
      (IssuerVerifyingKeys.verify edOk mlOk = .ok () ↔ edOk = true ∧ mlOk = true) ∧
      ((edOk = false ∨ mlOk = false) →
        IssuerVerifyingKeys.verify edOk mlOk = .error .cryptoError)) := by
  refine ⟨?_, ?_, ?_⟩
  · intro sha3 mlVerify slhVerify pk msg sig
    rw [QShieldSign.verify, Bool.and_eq_true]
  · intro sha3 mlVerify slhVerify pk msg sig h
    rw [QShieldSign.verify]
    rcases h with h | h
    · rw [h, Bool.false_and]
    · rw [h, Bool.and_false]
  · intro edOk mlOk
    cases edOk <;> cases mlOk <;> simp [IssuerVerifyingKeys.verify]

/-- C7 witness: concrete component outcomes.  With both components true the
dual verification succeeds; flipping either single component makes it
fail. -/
theorem C7_dual_signature_iff_witness :
    QShieldSign.verify (fun x => x) (fun _ _ _ => true) (fun _ _ _ => true)
      ⟨[1], [2]⟩ [3] ⟨[4], [5], none⟩ = true ∧
    QShieldSign.verify (fun x => x) (fun _ _ _ => false) (fun _ _ _ => true)
      ⟨[1], [2]⟩ [3] ⟨[4], [5], none⟩ = false ∧
    QShieldSign.verify (fun x => x) (fun _ _ _ => true) (fun _ _ _ => false)
      ⟨[1], [2]⟩ [3] ⟨[4], [5], none⟩ = false ∧
    IssuerVerifyingKeys.verify true true = .ok () ∧
    IssuerVerifyingKeys.verify false true = .error .cryptoError ∧
    IssuerVerifyingKeys.verify true false = .error .cryptoError := by
  refine ⟨(C7_dual_signature_iff.1 (fun x => x) (fun _ _ _ => true) (fun _ _ _ => true)
      ⟨[1], [2]⟩ [3] ⟨[4], [5], none⟩).mpr ⟨rfl, rfl⟩,
    C7_dual_signature_iff.2.1 (fun x => x) (fun _ _ _ => false) (fun _ _ _ => true)
      ⟨[1], [2]⟩ [3] ⟨[4], [5], none⟩ (Or.inl rfl),
    C7_dual_signature_iff.2.1 (fun x => x) (fun _ _ _ => true) (fun _ _ _ => false)
      ⟨[1], [2]⟩ [3] ⟨[4], [5], none⟩ (Or.inr rfl),
    (C7_dual_signature_iff.2.2 true true).1.mpr ⟨rfl, rfl⟩,
    (C7_dual_signature_iff.2.2 false true).2 (Or.inl rfl),
    (C7_dual_signature_iff.2.2 true false).2 (Or.inr rfl)⟩

/-- C8 (amended).  For every payload constructed by `QTokenPayload::new`
with a non-negative `validity_seconds` argument, and for every non-negative
clock skew, `exp ≥ nbf` and `nbf ≥ iat − skew` hold (indeed `nbf = iat`).
The non-negativity restriction on `validity_seconds` is forced: `new` sets
`exp = now + validity_seconds` and `nbf = now`, so a negative validity (as
used by the repository's own expired-token test, S3) gives `exp < nbf`. -/
theorem C8_payload_time_invariant (now : Int) (subject : List Nat)
    (issuer : String) (audience : List String) (policyRef : String)
    (validitySeconds : Int) (jti rid : List Nat) (skew : Int)
    (hval : 0 ≤ validitySeconds) (hskew : 0 ≤ skew) :
    (QTokenPayload.new now subject issuer audience policyRef
        validitySeconds jti rid).exp ≥
      (QTokenPayload.new now subject issuer audience policyRef
        validitySeconds jti rid).nbf ∧
    (QTokenPayload.new now subject issuer audience policyRef
        validitySeconds jti rid).nbf ≥
      (QTokenPayload.new now subject issuer audience policyRef
        validitySeconds jti rid).iat - skew := by
  simp only [QTokenPayload.new]
  omega

/-- C8 witness: the S1 parameters (validity 3600 s, skew 60 s). -/
theorem C8_payload_time_invariant_witness :
    (QTokenPayload.new 1700000000 [117, 115, 101, 114] "https://auth.example.com"
        ["https://api.example.com"] "urn:qauth:policy:default" 3600
        (List.replicate 16 0) (List.replicate 16 0)).exp ≥
      (QTokenPayload.new 1700000000 [117, 115, 101, 114] "https://auth.example.com"
        ["https://api.example.com"] "urn:qauth:policy:default" 3600
        (List.replicate 16 0) (List.replicate 16 0)).nbf ∧
    (QTokenPayload.new 1700000000 [117, 115, 101, 114] "https://auth.example.com"
        ["https://api.example.com"] "urn:qauth:policy:default" 3600
        (List.replicate 16 0) (List.replicate 16 0)).nbf ≥
      (QTokenPayload.new 1700000000 [117, 115, 101, 114] "https://auth.example.com"
        ["https://api.example.com"] "urn:qauth:policy:default" 3600
        (List.replicate 16 0) (List.replicate 16 0)).iat - 60 :=
  C8_payload_time_invariant 1700000000 [117, 115, 101, 114]
    "https://auth.example.com" ["https://api.example.com"]
    "urn:qauth:policy:default" 3600 (List.replicate 16 0) (List.replicate 16 0) 60
    (by norm_num) (by norm_num)

/-- C8 counterexample.  The claim as stated quantifies over any
`validity_seconds`: with `validity_seconds = -3600` (exactly the S3 /
`test_expired_token_fails` construction) the payload built by
`QTokenPayload::new` has `exp < nbf`, violating `exp ≥ nbf`. -/
theorem C8_payload_time_invariant_counterexample :
    ¬ ((QTokenPayload.new 1700000000 [117, 115, 101, 114]
        "https://auth.example.com" ["https://api.example.com"]
        "urn:qauth:policy:default" (-3600)
        (List.replicate 16 0) (List.replicate 16 0)).exp ≥
      (QTokenPayload.new 1700000000 [117, 115, 101, 114]
        "https://auth.example.com" ["https://api.example.com"]
        "urn:qauth:policy:default" (-3600)
        (List.replicate 16 0) (List.replicate 16 0)).nbf) := by
  simp only [QTokenPayload.new]
  omega

/-! ### Revocation bloom filter (qauth/rust/src/revocation.rs)

`bits` is the `Vec<u64>` word array (each word `< 2 ^ 64`; bitwise or never
overflows).  The constructor's floating-point sizing (`optimal_size`,
`optimal_hashes`) is abstracted: claims quantify over all filters with the
structural invariant the constructor establishes (`size_bits > 0` and
`bits.len() = (size_bits + 63) / 64`). -/

/-- Seeded FNV-1a-64 (`RevocationBloomFilter::hash`): the offset basis is
`wrapping_add`-ed with the seed, then each byte is xor-ed in and multiplied
by the FNV prime with u64 wrapping. -/
def fnv1aHash (data : List Nat) (seed : Nat) : Nat :=
  data.foldl (fun h b => ((h ^^^ b) * 1099511628211) % 2 ^ 64)
    ((14695981039346656037 + seed) % 2 ^ 64)

/-- Set bit `idx` in a u64 word array (`bits[word] |= 1 << pos`). -/
def setBitIn (bs : List Nat) (idx : Nat) : List Nat :=
  bs.set (idx / 64) (bs.getD (idx / 64) 0 ||| (1 <<< (idx % 64)))

/-- Test bit `idx` in a u64 word array (`bits[word] & (1 << pos) != 0`). -/
def testBitIn (bs : List Nat) (idx : Nat) : Bool :=
  (bs.getD (idx / 64) 0 &&& (1 <<< (idx % 64))) != 0

/-- Bloom filter over 16-byte revocation ids (`RevocationBloomFilter`). -/
structure RevocationBloomFilter where
  bits : List Nat
  numHashes : Nat
  sizeBits : Nat

/-- Adding a revocation id (`RevocationBloomFilter::add`): set the bit at
`hash(rid, i) % size_bits` for each `i < num_hashes`. -/
def RevocationBloomFilter.add (f : RevocationBloomFilter) (rid : List Nat) :
    RevocationBloomFilter :=
  { f with bits := ((List.range f.numHashes).foldl
      (fun bs i => setBitIn bs (fnv1aHash rid i % f.sizeBits)) f.bits) }

/-- Membership test (`RevocationBloomFilter::might_contain`): true iff all
`num_hashes` positions are set. -/
def RevocationBloomFilter.mightContain (f : RevocationBloomFilter)
    (rid : List Nat) : Bool :=
  (List.range f.numHashes).all fun i =>
    testBitIn f.bits (fnv1aHash rid i % f.sizeBits)

/-- Structural invariant established by `RevocationBloomFilter::new`. -/
def RevocationBloomFilter.Inv (f : RevocationBloomFilter) : Prop :=
  0 < f.sizeBits ∧ f.bits.length = (f.sizeBits + 63) / 64

/-- A sequence of `add` operations. -/
def RevocationBloomFilter.addAll (f : RevocationBloomFilter)
    (rids : List (List Nat)) : RevocationBloomFilter :=
  rids.foldl RevocationBloomFilter.add f

theorem and_two_pow_ne_zero (x p : Nat) : x &&& 2 ^ p ≠ 0 ↔ x.testBit p = true := by
  constructor
  · intro h
    by_contra hbit
    apply h
    apply Nat.eq_of_testBit_eq
    intro i
    rw [Nat.testBit_and, Nat.zero_testBit, Nat.testBit_two_pow]
    by_cases hip : p = i
    · subst hip
      rw [Bool.not_eq_true] at hbit
      simp [hbit]
    · simp [hip]
  · intro h hzero
    have h2 := congrArg (fun n => n.testBit p) hzero
    simp only [Nat.testBit_and, Nat.testBit_two_pow, Nat.zero_testBit] at h2
    rw [h] at h2
    simp at h2

theorem testBitIn_iff (bs : List Nat) (idx : Nat) :
    testBitIn bs idx = true ↔ (bs.getD (idx / 64) 0).testBit (idx % 64) = true := by
  rw [testBitIn, Nat.one_shiftLeft, bne_iff_ne]
  exact and_two_pow_ne_zero _ _

theorem setBitIn_length (bs : List Nat) (idx : Nat) :
    (setBitIn bs idx).length = bs.length := by
  rw [setBitIn, List.length_set]

theorem testBitIn_setBitIn_self (bs : List Nat) (idx : Nat)
    (h : idx / 64 < bs.length) : testBitIn (setBitIn bs idx) idx = true := by
  rw [testBitIn_iff, setBitIn]
  have hget : (bs.set (idx / 64) (bs.getD (idx / 64) 0 |||
      (1 <<< (idx % 64)))).getD (idx / 64) 0 =
      bs.getD (idx / 64) 0 ||| (1 <<< (idx % 64)) := by
    rw [List.getD, List.get?_eq_getElem?, List.getElem?_set_self h]
    rfl
  rw [hget, Nat.one_shiftLeft, Nat.testBit_or, Nat.testBit_two_pow]
  simp

theorem testBitIn_setBitIn_mono (bs : List Nat) (idx idx' : Nat)
    (h : testBitIn bs idx = true) : testBitIn (setBitIn bs idx') idx = true := by
  rw [testBitIn_iff] at h ⊢
  rw [setBitIn]
  by_cases hw : idx' / 64 = idx / 64
  · have hlt : idx / 64 < bs.length := by
      by_contra hge
      rw [List.getD_eq_default _ _ (by omega)] at h
      simp [Nat.zero_testBit] at h
    have hget : (bs.set (idx' / 64) (bs.getD (idx' / 64) 0 |||
        (1 <<< (idx' % 64)))).getD (idx / 64) 0 =
        bs.getD (idx / 64) 0 ||| (1 <<< (idx' % 64)) := by
      rw [hw, List.getD, List.get?_eq_getElem?, List.getElem?_set_self hlt]
      rfl
    rw [hget, Nat.testBit_or, h, Bool.true_or]
  · have hget : (bs.set (idx' / 64) (bs.getD (idx' / 64) 0 |||
        (1 <<< (idx' % 64)))).getD (idx / 64) 0 = bs.getD (idx / 64) 0 := by
      rw [List.getD, List.get?_eq_getElem?, List.getElem?_set_ne hw,
        ← List.get?_eq_getElem?, ← List.getD]
    rw [hget]
    exact h

theorem foldl_setBitIn_length (idxs : List Nat) :
    ∀ (bs : List Nat), (idxs.foldl setBitIn bs).length = bs.length := by
  induction idxs with
  | nil => intro bs; rfl
  | cons j rest ih =>
      intro bs
      rw [List.foldl_cons, ih, setBitIn_length]

theorem foldl_setBitIn_mono (idxs : List Nat) :
    ∀ (bs : List Nat) (idx : Nat), testBitIn bs idx = true →
      testBitIn (idxs.foldl setBitIn bs) idx = true := by
  induction idxs with
  | nil => intro bs idx h; exact h
  | cons j rest ih =>
      intro bs idx h
      rw [List.foldl_cons]
      exact ih _ idx (testBitIn_setBitIn_mono bs idx j h)

theorem foldl_setBitIn_sets (idxs : List Nat) :
    ∀ (bs : List Nat), (∀ i ∈ idxs, i / 64 < bs.length) →
      ∀ i ∈ idxs, testBitIn (idxs.foldl setBitIn bs) i = true := by
  induction idxs with
  | nil => intro bs _ i hi; simp at hi
  | cons j rest ih =>
      intro bs hlen i hi
      rw [List.foldl_cons]
      rcases List.mem_cons.mp hi with rfl | hi2
      · exact foldl_setBitIn_mono rest _ i
          (testBitIn_setBitIn_self bs i (hlen i (by simp)))
      · exact ih (setBitIn bs j)
          (fun k hk => by rw [setBitIn_length]; exact hlen k (by simp [hk])) i hi2

theorem RevocationBloomFilter.add_sizeBits (f : RevocationBloomFilter)
    (rid : List Nat) : (f.add rid).sizeBits = f.sizeBits := rfl

theorem RevocationBloomFilter.add_numHashes (f : RevocationBloomFilter)
    (rid : List Nat) : (f.add rid).numHashes = f.numHashes := rfl

theorem RevocationBloomFilter.add_Inv (f : RevocationBloomFilter) (rid : List Nat)
    (h : f.Inv) : (f.add rid).Inv := by
  obtain ⟨h1, h2⟩ := h
  refine ⟨h1, ?_⟩
  show ((List.range f.numHashes).foldl
    (fun bs i => setBitIn bs (fnv1aHash rid i % f.sizeBits)) f.bits).length =
    (f.sizeBits + 63) / 64
  rw [← List.foldl_map (fun i => fnv1aHash rid i % f.sizeBits) setBitIn,
    foldl_setBitIn_length, h2]

theorem RevocationBloomFilter.mightContain_add (f : RevocationBloomFilter)
    (rid : List Nat) (hinv : f.Inv) : (f.add rid).mightContain rid = true := by
  obtain ⟨h1, h2⟩ := hinv
  rw [RevocationBloomFilter.mightContain, List.all_eq_true]
  intro i hi
  rw [List.mem_range] at hi
  show testBitIn ((List.range f.numHashes).foldl
    (fun bs i => setBitIn bs (fnv1aHash rid i % f.sizeBits)) f.bits)
    (fnv1aHash rid i % f.sizeBits) = true
  rw [← List.foldl_map (fun i => fnv1aHash rid i % f.sizeBits) setBitIn]
  apply foldl_setBitIn_sets
  · intro k hk
    rw [List.mem_map] at hk
    obtain ⟨j, -, rfl⟩ := hk
    have hm : fnv1aHash rid j % f.sizeBits < f.sizeBits := Nat.mod_lt _ h1
    rw [h2]
    omega
  · rw [List.mem_map]
    exact ⟨i, List.mem_range.mpr hi, rfl⟩

theorem RevocationBloomFilter.mightContain_add_mono (f : RevocationBloomFilter)
    (rid rid' : List Nat) (h : f.mightContain rid = true) :
    (f.add rid').mightContain rid = true := by
  rw [RevocationBloomFilter.mightContain, List.all_eq_true] at h ⊢
  intro i hi
  have hbit := h i hi
  show testBitIn ((List.range f.numHashes).foldl
    (fun bs j => setBitIn bs (fnv1aHash rid' j % f.sizeBits)) f.bits)
    (fnv1aHash rid i % f.sizeBits) = true
  rw [← List.foldl_map (fun j => fnv1aHash rid' j % f.sizeBits) setBitIn]
  exact foldl_setBitIn_mono _ _ _ hbit

theorem RevocationBloomFilter.mightContain_addAll_mono :
    ∀ (rids : List (List Nat)) (f : RevocationBloomFilter) (rid : List Nat),
      f.mightContain rid = true → (f.addAll rids).mightContain rid = true
  | [], _, _, h => h
  | r :: rest, f, rid, h =>
      RevocationBloomFilter.mightContain_addAll_mono rest (f.add r) rid
        (RevocationBloomFilter.mightContain_add_mono f rid r h)

/-- C9 (confirmed).  A `RevocationBloomFilter` has no false negatives: for
every filter satisfying the constructor's structural invariant, every
sequence of `add` operations, and every revocation id in that sequence,
`might_contain` returns true on the resulting filter. -/
theorem C9_bloom_no_false_negatives :
    ∀ (rids : List (List Nat)) (f : RevocationBloomFilter) (rid : List Nat),
      f.Inv → rid ∈ rids → (f.addAll rids).mightContain rid = true
  | [], _, _, _, hmem => by simp at hmem
  | r :: rest, f, rid, hinv, hmem => by
      rw [RevocationBloomFilter.addAll, List.foldl_cons]
      rcases List.mem_cons.mp hmem with rfl | hmem2
      · exact RevocationBloomFilter.mightContain_addAll_mono rest (f.add rid) rid
          (RevocationBloomFilter.mightContain_add f rid hinv)
      · exact C9_bloom_no_false_negatives rest (f.add r) rid
          (RevocationBloomFilter.add_Inv f r hinv) hmem2

/-- C9 witness: a 64-bit filter with two hash functions; after adding two
ids, both are reported as possibly contained. -/
theorem C9_bloom_no_false_negatives_witness :
    (0 < (64 : Nat) ∧ ([0] : List Nat).length = (64 + 63) / 64) ∧
    (RevocationBloomFilter.addAll ⟨[0], 2, 64⟩
      [[1, 2, 3], [4, 5, 6]]).mightContain [1, 2, 3] = true ∧
    (RevocationBloomFilter.addAll ⟨[0], 2, 64⟩
      [[1, 2, 3], [4, 5, 6]]).mightContain [4, 5, 6] = true :=
  ⟨⟨by decide, by decide⟩,
    C9_bloom_no_false_negatives [[1, 2, 3], [4, 5, 6]] ⟨[0], 2, 64⟩ [1, 2, 3]
      ⟨by decide, by decide⟩ (by decide),
    C9_bloom_no_false_negatives [[1, 2, 3], [4, 5, 6]] ⟨[0], 2, 64⟩ [4, 5, 6]
      ⟨by decide, by decide⟩ (by decide)⟩
